import Mathlib

/-!
Verification of the gene-sim per-tick simulation core (Rust sources under
`src/wasm/src/`).  The Rust code is shallowly embedded: `f32` arithmetic is
modelled by exact arithmetic in a linear ordered field with a floor (we
instantiate at `ℚ` where the claims need computation and at `ℝ` where the
source uses `sqrt`/trigonometry); `Vec<T>` state is modelled by an index
function together with an explicit length; `as usize` casts of
nonnegative floats are `Int.toNat ∘ Int.floor` (Rust saturates negative
floats to 0, which `Int.toNat` reproduces); the Rust `%` on floats is the
truncated remainder `fmodF`.
-/

namespace GeneSim

variable {α : Type} [LinearOrderedField α] [FloorRing α]

/-- Truncation toward zero, the rounding used by Rust's float `%`. -/
def ftrunc (q : α) : ℤ := if 0 ≤ q then ⌊q⌋ else ⌈q⌉

/-- Rust float remainder `x % w` (truncated remainder). -/
def fmodF (x w : α) : α := x - w * (ftrunc (x / w) : ℤ)

/-- The double-wrap `((x % w) + w) % w` used by `BiomeCollisionMap::is_traversable`. -/
def wrapCoord (w x : α) : α := fmodF (fmodF x w + w) w

/-- Embedding of the Rust struct `BiomeCollisionMap` (collision.rs).
`traversability` and `cache` are `Vec`s embedded as index functions with
explicit lengths `travLen` and `cacheLen`. -/
structure BiomeCollisionMap (α : Type) where
  traversability : ℕ → ℕ
  travLen : ℕ
  gridWidth : ℕ
  gridHeight : ℕ
  cellSize : α
  worldWidth : α
  worldHeight : α
  cache : ℕ → Option Bool
  cacheLen : ℕ
  cacheGeneration : ℕ

namespace BiomeCollisionMap

/-- Embedding of `BiomeCollisionMap::new` (collision.rs lines 21-47). -/
def new (data : ℕ → ℕ) (gridWidth gridHeight : ℕ) (cellSize worldWidth worldHeight : α) :
    BiomeCollisionMap α :=
  { traversability := data
    travLen := gridWidth * gridHeight
    gridWidth := gridWidth
    gridHeight := gridHeight
    cellSize := cellSize
    worldWidth := worldWidth
    worldHeight := worldHeight
    cache := fun _ => none
    cacheLen := min (gridWidth * gridHeight) 10000
    cacheGeneration := 0 }

/-- Grid x-coordinate of a world x-coordinate after wrapping (collision.rs line 56). -/
def gridXOf (m : BiomeCollisionMap α) (worldX : α) : ℕ :=
  (⌊wrapCoord m.worldWidth worldX / m.cellSize⌋).toNat

/-- Grid y-coordinate of a world y-coordinate after wrapping (collision.rs line 57). -/
def gridYOf (m : BiomeCollisionMap α) (worldY : α) : ℕ :=
  (⌊wrapCoord m.worldHeight worldY / m.cellSize⌋).toNat

/-- The flattened grid index consulted for a world coordinate pair. -/
def cellIndexOf (m : BiomeCollisionMap α) (worldX worldY : α) : ℕ :=
  m.gridYOf worldY * m.gridWidth + m.gridXOf worldX

/-- The pure flag the grid stores for a world coordinate pair: wrap both
coordinates, discretize, bounds-check, and read the grid byte (`= 1`). -/
def flagAt (m : BiomeCollisionMap α) (worldX worldY : α) : Bool :=
  if m.gridWidth ≤ m.gridXOf worldX ∨ m.gridHeight ≤ m.gridYOf worldY then false
  else decide (m.traversability (m.cellIndexOf worldX worldY) = 1)

/-- Embedding of `BiomeCollisionMap::is_traversable` (collision.rs lines 49-80).
The Rust method takes `&mut self` because it fills the cache; the embedding
returns the result together with the updated map state. -/
def isTraversable (m : BiomeCollisionMap α) (worldX worldY : α) :
    Bool × BiomeCollisionMap α :=
  let gridX := m.gridXOf worldX
  let gridY := m.gridYOf worldY
  if m.gridWidth ≤ gridX ∨ m.gridHeight ≤ gridY then (false, m)
  else
    let idx := gridY * m.gridWidth + gridX
    let cacheIdx := idx % m.cacheLen
    match m.cache cacheIdx with
    | some cached => (cached, m)
    | none =>
        let t := decide (m.traversability idx = 1)
        (t, { m with cache := Function.update m.cache cacheIdx (some t) })

/-- Embedding of `BiomeCollisionMap::clear_cache` (collision.rs lines 96-100). -/
def clearCache (m : BiomeCollisionMap α) : BiomeCollisionMap α :=
  { m with cache := fun _ => none, cacheGeneration := m.cacheGeneration + 1 }

/-- Embedding of `BiomeCollisionMap::update_traversability` (collision.rs
lines 102-108); `newData`/`newLen` embed the `new_data` slice. -/
def updateTraversability (m : BiomeCollisionMap α) (newData : ℕ → ℕ) (newLen : ℕ) :
    BiomeCollisionMap α :=
  if newLen = m.travLen then
    clearCache { m with traversability := newData }
  else m

end BiomeCollisionMap

theorem ftrunc_of_nonneg {q : α} (h : 0 ≤ q) : ftrunc q = ⌊q⌋ := if_pos h

theorem fmodF_of_nonneg_lt {x w : α} (h0 : 0 ≤ x) (hx : x < w) : fmodF x w = x := by
  have hw : 0 < w := lt_of_le_of_lt h0 hx
  have hq : 0 ≤ x / w := div_nonneg h0 hw.le
  have hq1 : x / w < 1 := (div_lt_one hw).2 hx
  have : ⌊x / w⌋ = 0 := Int.floor_eq_zero_iff.2 ⟨hq, hq1⟩
  simp [fmodF, ftrunc_of_nonneg hq, this]

theorem wrapCoord_of_mem {w x : α} (h0 : 0 ≤ x) (hx : x < w) : wrapCoord w x = x := by
  have hw : 0 < w := lt_of_le_of_lt h0 hx
  have h1 : fmodF x w = x := fmodF_of_nonneg_lt h0 hx
  have hq : 0 ≤ (x + w) / w := div_nonneg (by linarith) hw.le
  have hfl : ⌊(x + w) / w⌋ = 1 := by
    refine Int.floor_eq_iff.mpr ⟨?_, ?_⟩
    · rw [le_div_iff hw]; push_cast; linarith
    · rw [div_lt_iff hw]; push_cast; linarith
  rw [wrapCoord, h1, fmodF, ftrunc_of_nonneg hq, hfl]
  push_cast; ring

/-- A map state whose cache is entirely empty. -/
def CacheEmpty (m : BiomeCollisionMap α) : Prop := ∀ s, m.cache s = none

theorem isTraversable_of_cacheEmpty (m : BiomeCollisionMap α) (x y : α)
    (h : CacheEmpty m) : (m.isTraversable x y).1 = m.flagAt x y := by
  unfold BiomeCollisionMap.isTraversable BiomeCollisionMap.flagAt
  by_cases hb : m.gridWidth ≤ m.gridXOf x ∨ m.gridHeight ≤ m.gridYOf y
  · simp [hb]
  · simp only [hb, if_false]
    rw [h]
    rfl

theorem isTraversable_of_cache_some (m : BiomeCollisionMap α) (x y : α) (c : Bool)
    (hx : m.gridXOf x < m.gridWidth) (hy : m.gridYOf y < m.gridHeight)
    (hc : m.cache ((m.gridYOf y * m.gridWidth + m.gridXOf x) % m.cacheLen) = some c) :
    m.isTraversable x y = (c, m) := by
  unfold BiomeCollisionMap.isTraversable
  rw [if_neg (by push_neg; exact ⟨hx, hy⟩)]
  simp only [hc]

theorem isTraversable_of_cache_none (m : BiomeCollisionMap α) (x y : α)
    (hx : m.gridXOf x < m.gridWidth) (hy : m.gridYOf y < m.gridHeight)
    (hc : m.cache ((m.gridYOf y * m.gridWidth + m.gridXOf x) % m.cacheLen) = none) :
    m.isTraversable x y =
      (decide (m.traversability (m.gridYOf y * m.gridWidth + m.gridXOf x) = 1),
        { m with cache := Function.update m.cache ((m.gridYOf y * m.gridWidth + m.gridXOf x) % m.cacheLen) (some (decide (m.traversability (m.gridYOf y * m.gridWidth + m.gridXOf x) = 1))) }) := by
  unfold BiomeCollisionMap.isTraversable
  rw [if_neg (by push_neg; exact ⟨hx, hy⟩)]
  simp only [hc]

/-- The concrete map exhibiting the cache-collision bug of
`is_traversable`: a 101×100 grid (10100 cells) gets a cache of only
10000 slots, so grid cells 0 and 10000 share cache slot 0. Cell 0 is
traversable, cell 10000 is not. -/
def collideMap : BiomeCollisionMap ℚ :=
  BiomeCollisionMap.new (fun idx => if idx = 10000 then 0 else 1) 101 100 1 101 100

theorem collideMap_gridXOf_a : collideMap.gridXOf (1/2) = 0 := by
  rw [BiomeCollisionMap.gridXOf]
  show (⌊wrapCoord (101 : ℚ) (1/2) / 1⌋).toNat = 0
  rw [wrapCoord_of_mem (by norm_num) (by norm_num)]
  norm_num

theorem collideMap_gridYOf_a : collideMap.gridYOf (1/2) = 0 := by
  rw [BiomeCollisionMap.gridYOf]
  show (⌊wrapCoord (100 : ℚ) (1/2) / 1⌋).toNat = 0
  rw [wrapCoord_of_mem (by norm_num) (by norm_num)]
  norm_num

theorem collideMap_gridXOf_b : collideMap.gridXOf (3/2) = 1 := by
  rw [BiomeCollisionMap.gridXOf]
  show (⌊wrapCoord (101 : ℚ) (3/2) / 1⌋).toNat = 1
  rw [wrapCoord_of_mem (by norm_num) (by norm_num)]
  norm_num

theorem collideMap_gridYOf_b : collideMap.gridYOf (199/2) = 99 := by
  rw [BiomeCollisionMap.gridYOf]
  show (⌊wrapCoord (100 : ℚ) (199/2) / 1⌋).toNat = 99
  rw [wrapCoord_of_mem (by norm_num) (by norm_num)]
  have : (⌊(199 : ℚ)/2/1⌋) = 99 := by norm_num
  rw [this]; rfl

/-- The state of `collideMap` after the first lookup has populated cache slot 0. -/
def collideMap1 : BiomeCollisionMap ℚ :=
  { collideMap with cache := Function.update collideMap.cache 0 (some true) }

/-- C2. `is_traversable` does NOT always return the flag stored in the grid
for the consulted cell: on `collideMap`, after one lookup that lands in grid
cell 0 (world point (1/2, 1/2)), a lookup of world point (3/2, 199/2) —
which wraps and discretizes to grid cell (1, 99), flattened index 10000,
whose stored byte is 0 — returns `true` because cache slot 10000 % 10000 = 0
still holds cell 0's flag.  The claimed behaviour (`flagAt`) is `false`
there. -/
theorem c2_cache_collision_returns_wrong_flag :
    (((collideMap.isTraversable (1/2) (1/2)).2).isTraversable (3/2) (199/2)).1 = true ∧
      collideMap.cellIndexOf (3/2) (199/2) = 10000 ∧
      collideMap.traversability 10000 = 0 ∧
      collideMap.flagAt (3/2) (199/2) = false := by
  have hfirst : collideMap.isTraversable (1/2) (1/2) = (true, collideMap1) := by
    rw [isTraversable_of_cache_none collideMap (1/2) (1/2)
      (by rw [collideMap_gridXOf_a]; decide)
      (by rw [collideMap_gridYOf_a]; decide)
      (by rw [collideMap_gridXOf_a, collideMap_gridYOf_a]; rfl)]
    rw [collideMap_gridXOf_a, collideMap_gridYOf_a]
    rfl
  have hXb : collideMap1.gridXOf (3/2) = 1 := collideMap_gridXOf_b
  have hYb : collideMap1.gridYOf (199/2) = 99 := collideMap_gridYOf_b
  have hsecond : collideMap1.isTraversable (3/2) (199/2) = (true, collideMap1) := by
    rw [isTraversable_of_cache_some collideMap1 (3/2) (199/2) true
      (by rw [hXb]; decide) (by rw [hYb]; decide)
      (by rw [hXb, hYb]; decide)]
  have hidx : collideMap.cellIndexOf (3/2) (199/2) = 10000 := by
    rw [BiomeCollisionMap.cellIndexOf, collideMap_gridXOf_b, collideMap_gridYOf_b]
    rfl
  refine ⟨?_, hidx, rfl, ?_⟩
  · rw [hfirst, hsecond]
  · rw [BiomeCollisionMap.flagAt, if_neg, hidx]
    · rfl
    · push_neg
      refine ⟨?_, ?_⟩
      · rw [collideMap_gridXOf_b]; decide
      · rw [collideMap_gridYOf_b]; decide

/-- C8. `update_traversability` swaps the grid exactly when the supplied
length matches the stored grid length, is a silent no-op otherwise, and a
successful swap clears the cache so every subsequent first lookup reads the
new grid, never a cached flag. -/
theorem c8_update_traversability (m : BiomeCollisionMap α) (d : ℕ → ℕ) (n : ℕ) :
    (n = m.travLen →
        m.updateTraversability d n =
          { m with traversability := d, cache := fun _ => none,
                   cacheGeneration := m.cacheGeneration + 1 }) ∧
      (n ≠ m.travLen → m.updateTraversability d n = m) ∧
      (n = m.travLen → ∀ x y : α,
        ((m.updateTraversability d n).isTraversable x y).1 =
          (m.updateTraversability d n).flagAt x y) := by
  refine ⟨fun h => ?_, fun h => ?_, fun h x y => ?_⟩
  · rw [BiomeCollisionMap.updateTraversability, if_pos h]
    rfl
  · rw [BiomeCollisionMap.updateTraversability, if_neg h]
  · refine isTraversable_of_cacheEmpty _ x y ?_
    intro s
    rw [BiomeCollisionMap.updateTraversability, if_pos h]
    rfl

theorem c8_witness :
    (((BiomeCollisionMap.new (fun _ => 1) 2 2 (1:ℚ) 2 2).updateTraversability
        (fun _ => 0) 4).isTraversable 0 0).1 =
      ((BiomeCollisionMap.new (fun _ => 1) 2 2 (1:ℚ) 2 2).updateTraversability
        (fun _ => 0) 4).flagAt 0 0 :=
  (c8_update_traversability (BiomeCollisionMap.new (fun _ => 1) 2 2 (1:ℚ) 2 2)
    (fun _ => 0) 4).2.2 rfl 0 0

/-! Physics integrator (physics.rs, `integrate_batch`). -/

/-- Position and velocity of one entity, the per-entity state mutated by
`integrate_batch`. -/
structure PV where
  px : ℝ
  py : ℝ
  vx : ℝ
  vy : ℝ

/-- Toroidal wrap of one axis (physics.rs lines 46-56): add the extent when
below zero, subtract it when at or above the extent. -/
noncomputable def wrapAxis (extent p : ℝ) : ℝ :=
  if p < 0 then p + extent else if extent ≤ p then p - extent else p

/-- The loop body of `integrate_batch` (physics.rs lines 19-57) for one
entity, given its speed and metabolism genes. -/
noncomputable def integrateEntity (speed metabolism worldWidth worldHeight dt : ℝ) (e : PV) : PV :=
  let metabolismEfficiency := min (metabolism / 0.15) 1
  let maxSpeed := speed * metabolismEfficiency
  let velMag := Real.sqrt (e.vx * e.vx + e.vy * e.vy)
  let vx := if velMag > maxSpeed ∧ velMag > 0.0001 then e.vx * (maxSpeed / velMag) else e.vx
  let vy := if velMag > maxSpeed ∧ velMag > 0.0001 then e.vy * (maxSpeed / velMag) else e.vy
  { px := wrapAxis worldWidth (e.px + vx * dt)
    py := wrapAxis worldHeight (e.py + vy * dt)
    vx := vx
    vy := vy }

/-- Embedding of `integrate_batch` over a slice of entities: entity `i` of
the slice reads genes 0 (speed) and 2 (metabolism) of flat gene index
`start_idx + i` (9 genes per entity). -/
noncomputable def integrateBatch (genes : ℕ → ℝ) (worldWidth worldHeight dt : ℝ) :
    ℕ → List PV → List PV
  | _, [] => []
  | startIdx, e :: rest =>
      integrateEntity (genes (startIdx * 9)) (genes (startIdx * 9 + 2))
          worldWidth worldHeight dt e ::
        integrateBatch genes worldWidth worldHeight dt (startIdx + 1) rest

/-- Velocity magnitude as computed by the source (`(vx*vx+vy*vy).sqrt()`). -/
noncomputable def magnitude (vx vy : ℝ) : ℝ := Real.sqrt (vx * vx + vy * vy)

/-- The gene-derived speed cap `speed * min(metabolism / 0.15, 1)` of flat
entity index `i`. -/
noncomputable def speedCap (genes : ℕ → ℝ) (i : ℕ) : ℝ :=
  genes (i * 9) * min (genes (i * 9 + 2) / 0.15) 1

theorem integrateBatch_getD (genes : ℕ → ℝ) (W H dt : ℝ) (startIdx : ℕ)
    (es : List PV) (i : ℕ) (hi : i < es.length) :
    (integrateBatch genes W H dt startIdx es).getD i ⟨0, 0, 0, 0⟩ =
      integrateEntity (genes ((startIdx + i) * 9)) (genes ((startIdx + i) * 9 + 2))
        W H dt (es.getD i ⟨0, 0, 0, 0⟩) := by
  induction es generalizing startIdx i with
  | nil => exact absurd hi (by simp)
  | cons e rest ih =>
      cases i with
      | zero => simp [integrateBatch]
      | succ j =>
          have hj : j < rest.length := Nat.lt_of_succ_lt_succ hi
          have h2 := ih (startIdx + 1) j hj
          have harg : startIdx + 1 + j = startIdx + (j + 1) := by omega
          rw [harg] at h2
          simpa [integrateBatch] using h2

theorem integrateEntity_speed_cap (speed metab W H dt : ℝ) (e : PV)
    (hs : 0 ≤ speed) (hm : 0 ≤ metab) :
    magnitude (integrateEntity speed metab W H dt e).vx
        (integrateEntity speed metab W H dt e).vy ≤
      speed * min (metab / 0.15) 1 + 0.0001 ∧
      (speed * min (metab / 0.15) 1 < magnitude e.vx e.vy →
        0.0001 < magnitude e.vx e.vy →
        magnitude (integrateEntity speed metab W H dt e).vx
            (integrateEntity speed metab W H dt e).vy = speed * min (metab / 0.15) 1 ∧
          ∃ s : ℝ, 0 ≤ s ∧ (integrateEntity speed metab W H dt e).vx = s * e.vx ∧
            (integrateEntity speed metab W H dt e).vy = s * e.vy) := by
  have hM : 0 ≤ speed * min (metab / 0.15) 1 :=
    mul_nonneg hs (le_min (div_nonneg hm (by norm_num)) zero_le_one)
  have hmag0 : 0 ≤ magnitude e.vx e.vy := Real.sqrt_nonneg _
  set M := speed * min (metab / 0.15) 1 with hMdef
  by_cases hc : magnitude e.vx e.vy > M ∧ magnitude e.vx e.vy > 0.0001
  · have hmagpos : 0 < magnitude e.vx e.vy := lt_trans (by norm_num) hc.2
    have hvx : (integrateEntity speed metab W H dt e).vx = e.vx * (M / magnitude e.vx e.vy) := by
      simp only [integrateEntity, magnitude] at hc ⊢
      rw [if_pos hc]
    have hvy : (integrateEntity speed metab W H dt e).vy = e.vy * (M / magnitude e.vx e.vy) := by
      simp only [integrateEntity, magnitude] at hc ⊢
      rw [if_pos hc]
    have hk : 0 ≤ M / magnitude e.vx e.vy := div_nonneg hM hmag0
    have hmageq : magnitude (integrateEntity speed metab W H dt e).vx
        (integrateEntity speed metab W H dt e).vy = M := by
      rw [hvx, hvy, magnitude]
      have hfactor : e.vx * (M / magnitude e.vx e.vy) * (e.vx * (M / magnitude e.vx e.vy)) +
          e.vy * (M / magnitude e.vx e.vy) * (e.vy * (M / magnitude e.vx e.vy)) =
          (M / magnitude e.vx e.vy) ^ 2 * (e.vx * e.vx + e.vy * e.vy) := by ring
      rw [hfactor, Real.sqrt_mul (sq_nonneg _), Real.sqrt_sq hk]
      show M / magnitude e.vx e.vy * magnitude e.vx e.vy = M
      field_simp
    refine ⟨by rw [hmageq]; norm_num, fun _ _ => ⟨hmageq, M / magnitude e.vx e.vy, hk, ?_, ?_⟩⟩
    · rw [hvx]; ring
    · rw [hvy]; ring
  · have hvx : (integrateEntity speed metab W H dt e).vx = e.vx := by
      simp only [integrateEntity, magnitude] at hc ⊢
      rw [if_neg hc]
    have hvy : (integrateEntity speed metab W H dt e).vy = e.vy := by
      simp only [integrateEntity, magnitude] at hc ⊢
      rw [if_neg hc]
    constructor
    · rw [hvx, hvy]
      rcases not_and_or.1 hc with h | h
      · push_neg at h; linarith
      · push_neg at h; linarith
    · intro h1 h2
      exact absurd ⟨h1, h2⟩ hc

/-- C3 (amended). After `integrate_batch`, every entity's velocity magnitude
is at most `speed * min(metabolism/0.15, 1) + ε` with `ε = 0.0001`, for all
`dt` and nonnegative speed/metabolism genes; and when the pre-clamp
magnitude exceeds both the cap and the guard value `0.0001`, the velocity is
rescaled to exactly the cap by a nonnegative scalar (direction preserved). -/
theorem c3_speed_cap (genes : ℕ → ℝ) (startIdx : ℕ) (W H dt : ℝ) (es : List PV) (i : ℕ)
    (hi : i < es.length)
    (hs : 0 ≤ genes ((startIdx + i) * 9)) (hm : 0 ≤ genes ((startIdx + i) * 9 + 2)) :
    magnitude ((integrateBatch genes W H dt startIdx es).getD i ⟨0, 0, 0, 0⟩).vx
        ((integrateBatch genes W H dt startIdx es).getD i ⟨0, 0, 0, 0⟩).vy ≤
      speedCap genes (startIdx + i) + 0.0001 ∧
      (speedCap genes (startIdx + i) < magnitude (es.getD i ⟨0, 0, 0, 0⟩).vx (es.getD i ⟨0, 0, 0, 0⟩).vy →
        0.0001 < magnitude (es.getD i ⟨0, 0, 0, 0⟩).vx (es.getD i ⟨0, 0, 0, 0⟩).vy →
        magnitude ((integrateBatch genes W H dt startIdx es).getD i ⟨0, 0, 0, 0⟩).vx
            ((integrateBatch genes W H dt startIdx es).getD i ⟨0, 0, 0, 0⟩).vy =
          speedCap genes (startIdx + i) ∧
          ∃ s : ℝ, 0 ≤ s ∧
            ((integrateBatch genes W H dt startIdx es).getD i ⟨0, 0, 0, 0⟩).vx =
              s * (es.getD i ⟨0, 0, 0, 0⟩).vx ∧
            ((integrateBatch genes W H dt startIdx es).getD i ⟨0, 0, 0, 0⟩).vy =
              s * (es.getD i ⟨0, 0, 0, 0⟩).vy) := by
  rw [integrateBatch_getD genes W H dt startIdx es i hi]
  exact integrateEntity_speed_cap _ _ W H dt _ hs hm

theorem c3_witness :
    0 ≤ (fun n => if n = 0 then (5:ℝ) else if n = 2 then 3/20 else 0) ((0 + 0) * 9) ∧
      magnitude ((integrateBatch (fun n => if n = 0 then (5:ℝ) else if n = 2 then 3/20 else 0)
          100 100 1 0 [⟨0, 0, 3, 4⟩]).getD 0 ⟨0, 0, 0, 0⟩).vx
        ((integrateBatch (fun n => if n = 0 then (5:ℝ) else if n = 2 then 3/20 else 0)
          100 100 1 0 [⟨0, 0, 3, 4⟩]).getD 0 ⟨0, 0, 0, 0⟩).vy ≤
        speedCap (fun n => if n = 0 then (5:ℝ) else if n = 2 then 3/20 else 0) (0 + 0) + 0.0001 :=
  ⟨by norm_num,
    (c3_speed_cap (fun n => if n = 0 then (5:ℝ) else if n = 2 then 3/20 else 0)
      0 100 100 1 [⟨0, 0, 3, 4⟩] 0 (by norm_num) (by norm_num) (by norm_num)).1⟩

/-- C3 counterexample input: speed gene 0, metabolism gene 0.15 (cap 0),
velocity (1/20000, 0): the pre-clamp magnitude 1/20000 exceeds the cap but
not the guard 0.0001, so the code leaves the velocity unchanged rather than
rescaling it to the cap. -/
theorem c3_counterexample :
    integrateBatch (fun n => if n = 2 then (3:ℝ)/20 else 0) 100 100 1 0 [⟨0, 0, 1/20000, 0⟩] =
        [integrateEntity 0 (3/20) 100 100 1 ⟨0, 0, 1/20000, 0⟩] ∧
      speedCap (fun n => if n = 2 then (3:ℝ)/20 else 0) 0 = 0 ∧
      speedCap (fun n => if n = 2 then (3:ℝ)/20 else 0) 0 < magnitude (1/20000) 0 ∧
      (integrateEntity 0 (3/20) 100 100 1 ⟨0, 0, 1/20000, 0⟩).vx = 1/20000 ∧
      magnitude (integrateEntity 0 (3/20) 100 100 1 ⟨0, 0, 1/20000, 0⟩).vx
          (integrateEntity 0 (3/20) 100 100 1 ⟨0, 0, 1/20000, 0⟩).vy ≠
        speedCap (fun n => if n = 2 then (3:ℝ)/20 else 0) 0 := by
  have hmag : magnitude (1/20000 : ℝ) 0 = 1/20000 := by
    rw [magnitude, show ((1:ℝ)/20000 * (1/20000) + 0 * 0) = (1/20000)^2 by ring,
      Real.sqrt_sq (by norm_num)]
  have hcap : speedCap (fun n => if n = 2 then (3:ℝ)/20 else 0) 0 = 0 := by
    simp [speedCap]
  have hcond : ¬ (magnitude (1/20000 : ℝ) 0 > (0:ℝ) * min ((3:ℝ)/20 / 0.15) 1 ∧
      magnitude (1/20000 : ℝ) 0 > 0.0001) := by
    rw [hmag]
    push_neg
    intro _
    norm_num
  have hvx : (integrateEntity 0 (3/20) 100 100 1 ⟨0, 0, 1/20000, 0⟩).vx = 1/20000 := by
    simp only [integrateEntity, magnitude] at hcond ⊢
    rw [if_neg hcond]
  have hvy : (integrateEntity 0 (3/20) 100 100 1 ⟨0, 0, 1/20000, 0⟩).vy = 0 := by
    simp only [integrateEntity, magnitude] at hcond ⊢
    rw [if_neg hcond]
  refine ⟨rfl, hcap, ?_, hvx, ?_⟩
  · rw [hcap, hmag]; norm_num
  · rw [hvx, hvy, hmag, hcap]; norm_num

theorem wrapAxis_mem (w p : ℝ) (h1 : -w < p) (h2 : p < 2 * w) :
    0 ≤ wrapAxis w p ∧ wrapAxis w p < w := by
  unfold wrapAxis
  split_ifs with ha hb
  · constructor <;> linarith
  · constructor <;> linarith
  · constructor <;> linarith

theorem integrateEntity_pos_range (speed metab W H dt : ℝ) (e : PV)
    (hs : 0 ≤ speed) (hm : 0 ≤ metab)
    (hpx0 : 0 ≤ e.px) (hpxW : e.px < W) (hpy0 : 0 ≤ e.py) (hpyH : e.py < H)
    (hvx : |e.vx * dt| < W) (hvy : |e.vy * dt| < H) :
    0 ≤ (integrateEntity speed metab W H dt e).px ∧
      (integrateEntity speed metab W H dt e).px < W ∧
      0 ≤ (integrateEntity speed metab W H dt e).py ∧
      (integrateEntity speed metab W H dt e).py < H := by
  have hM : 0 ≤ speed * min (metab / 0.15) 1 :=
    mul_nonneg hs (le_min (div_nonneg hm (by norm_num)) zero_le_one)
  set M := speed * min (metab / 0.15) 1 with hMdef
  set mag := magnitude e.vx e.vy with hmagdef
  have hmag0 : 0 ≤ mag := Real.sqrt_nonneg _
  have hvx' : |(if mag > M ∧ mag > 0.0001 then e.vx * (M / mag) else e.vx) * dt| < W := by
    split_ifs with hcnd
    · have hk0 : 0 ≤ M / mag := div_nonneg hM hmag0
      have hk1 : M / mag < 1 := (div_lt_one (lt_trans (by norm_num) hcnd.2)).2 hcnd.1
      calc |e.vx * (M / mag) * dt| = |M / mag| * |e.vx * dt| := by
            rw [← abs_mul]; ring_nf
          _ ≤ 1 * |e.vx * dt| := by
            refine mul_le_mul_of_nonneg_right ?_ (abs_nonneg _)
            rw [abs_of_nonneg hk0]; exact hk1.le
          _ = |e.vx * dt| := one_mul _
          _ < W := hvx
    · exact hvx
  have hvy' : |(if mag > M ∧ mag > 0.0001 then e.vy * (M / mag) else e.vy) * dt| < H := by
    split_ifs with hcnd
    · have hk0 : 0 ≤ M / mag := div_nonneg hM hmag0
      have hk1 : M / mag < 1 := (div_lt_one (lt_trans (by norm_num) hcnd.2)).2 hcnd.1
      calc |e.vy * (M / mag) * dt| = |M / mag| * |e.vy * dt| := by
            rw [← abs_mul]; ring_nf
          _ ≤ 1 * |e.vy * dt| := by
            refine mul_le_mul_of_nonneg_right ?_ (abs_nonneg _)
            rw [abs_of_nonneg hk0]; exact hk1.le
          _ = |e.vy * dt| := one_mul _
          _ < H := hvy
    · exact hvy
  have habs1 := abs_lt.1 hvx'
  have habs2 := abs_lt.1 hvy'
  have hx := wrapAxis_mem W
    (e.px + (if mag > M ∧ mag > 0.0001 then e.vx * (M / mag) else e.vx) * dt)
    (by linarith [habs1.1]) (by linarith [habs1.2])
  have hy := wrapAxis_mem H
    (e.py + (if mag > M ∧ mag > 0.0001 then e.vy * (M / mag) else e.vy) * dt)
    (by linarith [habs2.1]) (by linarith [habs2.2])
  have hpx' : (integrateEntity speed metab W H dt e).px =
      wrapAxis W (e.px + (if mag > M ∧ mag > 0.0001 then e.vx * (M / mag) else e.vx) * dt) := by
    simp only [integrateEntity, hMdef, hmagdef, magnitude]
  have hpy' : (integrateEntity speed metab W H dt e).py =
      wrapAxis H (e.py + (if mag > M ∧ mag > 0.0001 then e.vy * (M / mag) else e.vy) * dt) := by
    simp only [integrateEntity, hMdef, hmagdef, magnitude]
  rw [hpx', hpy']
  exact ⟨hx.1, hx.2, hy.1, hy.2⟩

/-- C4 (amended). After `integrate_batch`, every processed entity's position
lies in `[0, W) × [0, H)`, provided the entity's input position is already
in that range, its speed and metabolism genes are nonnegative, and the
per-axis displacement satisfies `|v * dt| <` the world extent; wrapping is
per axis, single-wrap. -/
theorem c4_position_range (genes : ℕ → ℝ) (startIdx : ℕ) (W H dt : ℝ) (es : List PV) (i : ℕ)
    (hi : i < es.length)
    (hs : 0 ≤ genes ((startIdx + i) * 9)) (hm : 0 ≤ genes ((startIdx + i) * 9 + 2))
    (hpx0 : 0 ≤ (es.getD i ⟨0, 0, 0, 0⟩).px) (hpxW : (es.getD i ⟨0, 0, 0, 0⟩).px < W)
    (hpy0 : 0 ≤ (es.getD i ⟨0, 0, 0, 0⟩).py) (hpyH : (es.getD i ⟨0, 0, 0, 0⟩).py < H)
    (hvx : |(es.getD i ⟨0, 0, 0, 0⟩).vx * dt| < W)
    (hvy : |(es.getD i ⟨0, 0, 0, 0⟩).vy * dt| < H) :
    0 ≤ ((integrateBatch genes W H dt startIdx es).getD i ⟨0, 0, 0, 0⟩).px ∧
      ((integrateBatch genes W H dt startIdx es).getD i ⟨0, 0, 0, 0⟩).px < W ∧
      0 ≤ ((integrateBatch genes W H dt startIdx es).getD i ⟨0, 0, 0, 0⟩).py ∧
      ((integrateBatch genes W H dt startIdx es).getD i ⟨0, 0, 0, 0⟩).py < H := by
  rw [integrateBatch_getD genes W H dt startIdx es i hi]
  exact integrateEntity_pos_range _ _ W H dt _ hs hm hpx0 hpxW hpy0 hpyH hvx hvy

theorem c4_witness :
    (0:ℝ) ≤ 10 ∧
      0 ≤ ((integrateBatch (fun n => if n = 0 then (10:ℝ) else if n = 2 then 3/20 else 0)
          1000 1000 1 0 [⟨500, 500, 10, 0⟩]).getD 0 ⟨0, 0, 0, 0⟩).px ∧
      ((integrateBatch (fun n => if n = 0 then (10:ℝ) else if n = 2 then 3/20 else 0)
          1000 1000 1 0 [⟨500, 500, 10, 0⟩]).getD 0 ⟨0, 0, 0, 0⟩).px < 1000 :=
  ⟨by norm_num,
    (c4_position_range (fun n => if n = 0 then (10:ℝ) else if n = 2 then 3/20 else 0)
      0 1000 1000 1 [⟨500, 500, 10, 0⟩] 0 (by norm_num) (by norm_num) (by norm_num)
      (by norm_num) (by norm_num) (by norm_num) (by norm_num)
      (by rw [show ((([⟨500, 500, 10, 0⟩] : List PV).getD 0 ⟨0,0,0,0⟩).vx) = (10:ℝ) from rfl]
          norm_num)
      (by rw [show ((([⟨500, 500, 10, 0⟩] : List PV).getD 0 ⟨0,0,0,0⟩).vy) = (0:ℝ) from rfl]
          norm_num)).1,
    ((c4_position_range (fun n => if n = 0 then (10:ℝ) else if n = 2 then 3/20 else 0)
      0 1000 1000 1 [⟨500, 500, 10, 0⟩] 0 (by norm_num) (by norm_num) (by norm_num)
      (by norm_num) (by norm_num) (by norm_num) (by norm_num)
      (by rw [show ((([⟨500, 500, 10, 0⟩] : List PV).getD 0 ⟨0,0,0,0⟩).vx) = (10:ℝ) from rfl]
          norm_num)
      (by rw [show ((([⟨500, 500, 10, 0⟩] : List PV).getD 0 ⟨0,0,0,0⟩).vy) = (0:ℝ) from rfl]
          norm_num)).2).1⟩

/-- C4 counterexample input: world 1000×1000, entity at pre-wrap position
(-2000, 500) with zero velocity and `|v*dt| = 0 < 1000`: a single wrap only
adds 1000 once, leaving the position at -1000, outside `[0, 1000)`. -/
theorem c4_counterexample :
    integrateBatch (fun _ => (0:ℝ)) 1000 1000 1 0 [⟨-2000, 500, 0, 0⟩] =
        [integrateEntity 0 0 1000 1000 1 ⟨-2000, 500, 0, 0⟩] ∧
      |(0:ℝ) * 1| < 1000 ∧
      (integrateEntity 0 0 1000 1000 1 ⟨-2000, 500, 0, 0⟩).px = -1000 ∧
      ¬ (0 ≤ (integrateEntity 0 0 1000 1000 1 ⟨-2000, 500, 0, 0⟩).px) := by
  have hmag : magnitude (0:ℝ) 0 = 0 := by
    rw [magnitude, show ((0:ℝ) * 0 + 0 * 0) = 0 by ring, Real.sqrt_zero]
  have hcond : ¬ (magnitude (0:ℝ) 0 > (0:ℝ) * min ((0:ℝ) / 0.15) 1 ∧
      magnitude (0:ℝ) 0 > 0.0001) := by
    rw [hmag]
    push_neg
    intro h
    norm_num at h
  have hpx : (integrateEntity 0 0 1000 1000 1 ⟨-2000, 500, 0, 0⟩).px = -1000 := by
    simp only [integrateEntity, magnitude] at hcond ⊢
    rw [if_neg hcond, show ((-2000:ℝ) + 0 * 1) = -2000 by ring, wrapAxis]
    norm_num
  exact ⟨rfl, by norm_num, hpx, by rw [hpx]; norm_num⟩

/-! Spatial hash (spatial_hash.rs). -/

/-- Embedding of the Rust struct `SpatialHash`: `buckets` (head index per
cell, -1 if empty) and `next` (next pointer per entity) are `Vec<i32>`s
embedded as index functions. -/
structure SpatialHash (α : Type) where
  cellSize : α
  cols : ℕ
  rows : ℕ
  width : α
  height : α
  buckets : ℕ → ℤ
  next : ℕ → ℤ

namespace SpatialHash

/-- Embedding of `SpatialHash::new` (spatial_hash.rs lines 15-28); `capacity`
only sizes the `next` vector in the source, which the index-function
embedding does not need. -/
def new (width height cellSize : α) (_capacity : ℕ) : SpatialHash α :=
  { cellSize := cellSize
    cols := max (⌈width / cellSize⌉).toNat 1
    rows := max (⌈height / cellSize⌉).toNat 1
    width := width
    height := height
    buckets := fun _ => -1
    next := fun _ => -1 }

/-- Clamped grid x-cell of `get_key` (spatial_hash.rs line 32). -/
def getKeyX (h : SpatialHash α) (x : α) : ℕ := min (⌊x / h.cellSize⌋).toNat (h.cols - 1)

/-- Clamped grid y-cell of `get_key` (spatial_hash.rs line 33). -/
def getKeyY (h : SpatialHash α) (y : α) : ℕ := min (⌊y / h.cellSize⌋).toNat (h.rows - 1)

/-- Embedding of `SpatialHash::get_key` (spatial_hash.rs lines 30-35). -/
def getKey (h : SpatialHash α) (x y : α) : ℕ := h.getKeyY y * h.cols + h.getKeyX x

end SpatialHash

/-- One insertion of `rebuild`'s loop body (spatial_hash.rs lines 48-50):
prepend entity `i` to the bucket list of its cell. `bn` is the pair
(buckets, next). -/
def insertEntity (key : ℕ → ℕ) (bn : (ℕ → ℤ) × (ℕ → ℤ)) (i : ℕ) : (ℕ → ℤ) × (ℕ → ℤ) :=
  (Function.update bn.1 (key i) (i : ℤ), Function.update bn.2 i (bn.1 (key i)))

/-- The bucket/next state after `rebuild` has processed entities `0..n`:
both arrays are first cleared to -1, then each alive entity is prepended to
its cell's list. -/
def rebuildState (key : ℕ → ℕ) (alive : ℕ → ℕ) (n : ℕ) : (ℕ → ℤ) × (ℕ → ℤ) :=
  (List.range n).foldl
    (fun bn i => if alive i = 0 then bn else insertEntity key bn i)
    (fun _ => -1, fun _ => -1)

namespace SpatialHash

/-- Embedding of `SpatialHash::rebuild` (spatial_hash.rs lines 37-52). -/
def rebuild (h : SpatialHash α) (posX posY : ℕ → α) (alive : ℕ → ℕ) (count : ℕ) :
    SpatialHash α :=
  { h with
    buckets := (rebuildState (fun i => h.getKey (posX i) (posY i)) alive count).1
    next := (rebuildState (fun i => h.getKey (posX i) (posY i)) alive count).2 }

end SpatialHash

/-- Walk a bucket's singly linked list (`while idx != -1 { ...; idx = next[idx] }`),
collecting the visited entity indices.  `fuel` bounds the walk; any fuel at
least the chain length reproduces the source loop, which has no bound. -/
def chainToList (next : ℕ → ℤ) : ℕ → ℤ → List ℕ
  | 0, _ => []
  | fuel + 1, head =>
      if head = -1 then [] else head.toNat :: chainToList next fuel (next head.toNat)

/-- The inclusive range `a..=b` of Rust loops. -/
def natRange (a b : ℕ) : List ℕ := List.range' a (b + 1 - a)

namespace SpatialHash

/-- Lower x cell bound of a query box (`((x - r) / cell).max(0.0) as usize`). -/
def queryX0 (h : SpatialHash α) (x r : α) : ℕ := (⌊max ((x - r) / h.cellSize) 0⌋).toNat

/-- Lower y cell bound of a query box. -/
def queryY0 (h : SpatialHash α) (y r : α) : ℕ := (⌊max ((y - r) / h.cellSize) 0⌋).toNat

/-- Upper x cell bound of a query box (`((x + r) / cell).min(cols - 1) as usize`). -/
def queryX1 (h : SpatialHash α) (x r : α) : ℕ :=
  (⌊min ((x + r) / h.cellSize) ((h.cols : α) - 1)⌋).toNat

/-- Upper y cell bound of a query box. -/
def queryY1 (h : SpatialHash α) (y r : α) : ℕ :=
  (⌊min ((y + r) / h.cellSize) ((h.rows : α) - 1)⌋).toNat

/-- Center x cell of the limited scan (`(x / cell) as usize`, unclamped). -/
def centerX (h : SpatialHash α) (x : α) : ℕ := (⌊x / h.cellSize⌋).toNat

/-- Center y cell of the limited scan. -/
def centerY (h : SpatialHash α) (y : α) : ℕ := (⌊y / h.cellSize⌋).toNat

/-- Embedding of `SpatialHash::query_neighbors` (spatial_hash.rs lines
55-75): visit every cell of the box with padded radius `radius + cell_size`
in row-major order and push every entity of each cell's list. -/
def queryNeighbors (h : SpatialHash α) (x y radius : α) (fuel : ℕ) : List ℕ :=
  (natRange (h.queryY0 y (radius + h.cellSize)) (h.queryY1 y (radius + h.cellSize))).flatMap
    (fun cy =>
      (natRange (h.queryX0 x (radius + h.cellSize)) (h.queryX1 x (radius + h.cellSize))).flatMap
        (fun cx => chainToList h.next fuel (h.buckets (cy * h.cols + cx))))

end SpatialHash

/-- Chebyshev distance between two cells, as computed by the ring filter
(spatial_hash.rs lines 121-123). -/
def chebDist (a b : ℕ × ℕ) : ℕ :=
  max ((a.1 : ℤ) - (b.1 : ℤ)).natAbs ((a.2 : ℤ) - (b.2 : ℤ)).natAbs

/-- The cells of the bounding box in row-major scan order. -/
def boxCells (x0 x1 y0 y1 : ℕ) : List (ℕ × ℕ) :=
  (natRange y0 y1).flatMap (fun cy => (natRange x0 x1).map (fun cx => (cx, cy)))

/-- The cell visiting order of `for_each_neighbor_limited`: for each ring
0..=maxRing, the box cells whose Chebyshev distance from the center equals
the ring (spatial_hash.rs lines 117-125). -/
def ringCells (x0 x1 y0 y1 ccx ccy maxRing : ℕ) : List (ℕ × ℕ) :=
  (List.range (maxRing + 1)).flatMap
    (fun ring => (boxCells x0 x1 y0 y1).filter (fun c => chebDist c (ccx, ccy) = ring))

/-- The inner bucket-walk of `for_each_neighbor_limited` (spatial_hash.rs
lines 127-133): visit chain entries while the accepted count is below the
limit, threading the caller's closure state `σ`. -/
def visitChain {σ : Type} (next : ℕ → ℤ) (accept : σ → ℕ → σ × Bool) (limit : ℕ) :
    ℕ → ℤ → ℕ × σ → ℕ × σ
  | 0, _, cs => cs
  | fuel + 1, head, (checked, s) =>
      if head = -1 ∨ limit ≤ checked then (checked, s)
      else
        visitChain next accept limit fuel (next head.toNat)
          (if (accept s head.toNat).2 then checked + 1 else checked, (accept s head.toNat).1)

/-- The cell loop of `for_each_neighbor_limited` (spatial_hash.rs lines
117-140), including the early return once the limit is reached. -/
def visitCells {σ : Type} (next : ℕ → ℤ) (buckets : ℕ → ℤ) (cols : ℕ)
    (accept : σ → ℕ → σ × Bool) (limit fuel : ℕ) :
    List (ℕ × ℕ) → ℕ × σ → ℕ × σ
  | [], cs => cs
  | c :: rest, cs =>
      let cs' := visitChain next accept limit fuel (buckets (c.2 * cols + c.1)) cs
      if limit ≤ cs'.1 then cs'
      else visitCells next buckets cols accept limit fuel rest cs'

namespace SpatialHash

/-- Embedding of `SpatialHash::for_each_neighbor_limited` (spatial_hash.rs
lines 100-143). The closure is modelled as a state transformer
`σ → ℕ → σ × Bool`; the returned number is the count of accepted
candidates. -/
def forEachNeighborLimited {σ : Type} (h : SpatialHash α) (x y radius : α) (limit : ℕ)
    (accept : σ → ℕ → σ × Bool) (s0 : σ) (fuel : ℕ) : ℕ × σ :=
  visitCells h.next h.buckets h.cols accept limit fuel
    (ringCells (h.queryX0 x radius) (h.queryX1 x radius)
      (h.queryY0 y radius) (h.queryY1 y radius)
      (h.centerX x) (h.centerY y)
      (max (h.queryX1 x radius - h.queryX0 x radius)
        (h.queryY1 y radius - h.queryY0 y radius) / 2))
    (0, s0)

end SpatialHash

/-- The recording closure used to observe visit order: the state is the
list of visited entities, and the pure predicate decides acceptance. -/
def recordAccept (p : ℕ → Bool) : List ℕ → ℕ → List ℕ × Bool := fun s j => (s ++ [j], p j)

theorem chainToList_update_irrel (next : ℕ → ℤ) (n : ℕ) (v : ℤ) :
    ∀ (fuel : ℕ) (head : ℤ), (∀ m ∈ chainToList next fuel head, m ≠ n) →
      chainToList (Function.update next n v) fuel head = chainToList next fuel head := by
  intro fuel
  induction fuel with
  | zero => intro head _; rfl
  | succ f ih =>
      intro head hmem
      by_cases hh : head = -1
      · simp [chainToList, hh]
      · have hne : head.toNat ≠ n := by
          refine hmem head.toNat ?_
          simp [chainToList, hh]
        have hupd : Function.update next n v head.toNat = next head.toNat :=
          Function.update_noteq hne v next
        simp only [chainToList, hh, if_false]
        rw [hupd, ih (next head.toNat)]
        intro m hm
        refine hmem m ?_
        simp [chainToList, hh, hm]

/-- The decidable membership test used to characterize rebuilt buckets. -/
def inBucket (key : ℕ → ℕ) (alive : ℕ → ℕ) (k : ℕ) (i : ℕ) : Bool :=
  decide (alive i ≠ 0 ∧ key i = k)

theorem rebuildState_chain (key : ℕ → ℕ) (alive : ℕ → ℕ) :
    ∀ (n : ℕ) (k : ℕ) (fuel : ℕ), n ≤ fuel →
      chainToList (rebuildState key alive n).2 fuel ((rebuildState key alive n).1 k) =
        ((List.range n).filter (inBucket key alive k)).reverse := by
  intro n
  induction n with
  | zero =>
      intro k fuel _
      have h1 : (rebuildState key alive 0).1 k = -1 := rfl
      rw [h1]
      cases fuel with
      | zero => rfl
      | succ f => simp [chainToList]
  | succ n ih =>
      intro k fuel hfuel
      have hstep : rebuildState key alive (n + 1) =
          (if alive n = 0 then rebuildState key alive n
            else insertEntity key (rebuildState key alive n) n) := by
        rw [rebuildState, List.range_succ, List.foldl_append]
        rfl
      have hmemlt : ∀ k' fuel', n ≤ fuel' →
          ∀ m ∈ chainToList (rebuildState key alive n).2 fuel'
            ((rebuildState key alive n).1 k'), m < n := by
        intro k' fuel' hf m hm
        rw [ih k' fuel' hf] at hm
        rw [List.mem_reverse, List.mem_filter, List.mem_range] at hm
        exact hm.1
      by_cases ha : alive n = 0
      · rw [hstep, if_pos ha, ih k fuel (Nat.le_of_succ_le hfuel)]
        rw [List.range_succ, List.filter_append]
        have : List.filter (inBucket key alive k) [n] = [] := by
          simp [inBucket, ha]
        rw [this, List.append_nil]
      · rw [hstep, if_neg ha]
        by_cases hk : key n = k
        · have hb : (insertEntity key (rebuildState key alive n) n).1 k = (n : ℤ) := by
            rw [insertEntity]
            show Function.update (rebuildState key alive n).1 (key n) (n : ℤ) k = n
            rw [hk, Function.update_same]
          cases fuel with
          | zero => exact absurd hfuel (by omega)
          | succ f =>
              have hf : n ≤ f := Nat.le_of_succ_le_succ hfuel
              rw [hb]
              have hnint : ((n : ℤ)) ≠ -1 := by omega
              simp only [chainToList, hnint, if_false, Int.toNat_natCast]
              have hnextn : (insertEntity key (rebuildState key alive n) n).2 n =
                  (rebuildState key alive n).1 (key n) := by
                rw [insertEntity]
                show Function.update (rebuildState key alive n).2 n
                  ((rebuildState key alive n).1 (key n)) n = _
                rw [Function.update_same]
              rw [hnextn, hk]
              have hirrel : chainToList (insertEntity key (rebuildState key alive n) n).2 f
                  ((rebuildState key alive n).1 k) =
                  chainToList (rebuildState key alive n).2 f ((rebuildState key alive n).1 k) := by
                show chainToList (Function.update (rebuildState key alive n).2 n
                  ((rebuildState key alive n).1 (key n))) f _ = _
                refine chainToList_update_irrel _ n _ f _ ?_
                intro m hm
                exact Nat.ne_of_lt (hmemlt k f hf m hm)
              rw [hirrel, ih k f hf, List.range_succ, List.filter_append]
              have : List.filter (inBucket key alive k) [n] = [n] := by
                simp [inBucket, ha, hk]
              rw [this, List.reverse_append]
              rfl
        · have hb : (insertEntity key (rebuildState key alive n) n).1 k =
              (rebuildState key alive n).1 k := by
            rw [insertEntity]
            show Function.update (rebuildState key alive n).1 (key n) (n : ℤ) k = _
            exact Function.update_noteq (fun h => hk h.symm) _ _
          rw [hb]
          have hirrel : chainToList (insertEntity key (rebuildState key alive n) n).2 fuel
              ((rebuildState key alive n).1 k) =
              chainToList (rebuildState key alive n).2 fuel ((rebuildState key alive n).1 k) := by
            show chainToList (Function.update (rebuildState key alive n).2 n
              ((rebuildState key alive n).1 (key n))) fuel _ = _
            refine chainToList_update_irrel _ n _ fuel _ ?_
            intro m hm
            exact Nat.ne_of_lt (hmemlt k fuel (Nat.le_of_succ_le hfuel) m hm)
          rw [hirrel, ih k fuel (Nat.le_of_succ_le hfuel), List.range_succ, List.filter_append]
          have : List.filter (inBucket key alive k) [n] = [] := by
            simp [inBucket, hk]
          rw [this, List.append_nil]

theorem rebuildState_chain_mem (key : ℕ → ℕ) (alive : ℕ → ℕ) (n k fuel : ℕ) (hfuel : n ≤ fuel)
    (j : ℕ) :
    j ∈ chainToList (rebuildState key alive n).2 fuel ((rebuildState key alive n).1 k) ↔
      (j < n ∧ alive j ≠ 0 ∧ key j = k) := by
  rw [rebuildState_chain key alive n k fuel hfuel, List.mem_reverse, List.mem_filter,
    List.mem_range, inBucket]
  simp

theorem rebuildState_chain_nodup (key : ℕ → ℕ) (alive : ℕ → ℕ) (n k fuel : ℕ)
    (hfuel : n ≤ fuel) :
    (chainToList (rebuildState key alive n).2 fuel ((rebuildState key alive n).1 k)).Nodup := by
  rw [rebuildState_chain key alive n k fuel hfuel, List.nodup_reverse]
  exact List.Nodup.filter _ (List.nodup_range n)

theorem floor_max_zero (u : α) : ⌊max u 0⌋ = max ⌊u⌋ 0 := by
  have h : ⌊max u (0 : α)⌋ = max ⌊u⌋ ⌊(0 : α)⌋ := Int.floor_mono.map_max
  rw [h, Int.floor_zero]

theorem floor_min_cast (u : α) (z : ℤ) : ⌊min u (z : α)⌋ = min ⌊u⌋ z := by
  have h : ⌊min u ((z : α))⌋ = min ⌊u⌋ ⌊((z : α))⌋ := Int.floor_mono.map_min
  rw [h, Int.floor_intCast]

theorem mem_natRange {a b m : ℕ} (h1 : a ≤ m) (h2 : m ≤ b) : m ∈ natRange a b := by
  rw [natRange, List.mem_range'_1]
  omega

/-- Core axis coverage fact: a position `p` within `r` of an in-world query
coordinate `x` has its clamped grid cell inside the padded query cell range. -/
theorem axis_cover (c x p r w : α) (cols : ℕ) (hc : 0 < c) (hr : 0 ≤ r)
    (hx0 : 0 ≤ x) (hxw : x ≤ w) (hwc : w ≤ (cols : α) * c) (hcols : 1 ≤ cols)
    (hlo : x - r ≤ p) (hhi : p ≤ x + r) :
    (⌊max ((x - (r + c)) / c) 0⌋).toNat ≤ min (⌊p / c⌋).toNat (cols - 1) ∧
      min (⌊p / c⌋).toNat (cols - 1) ≤ (⌊min ((x + (r + c)) / c) ((cols : α) - 1)⌋).toNat := by
  have hcolscast : ((cols : α) - 1) = (((cols : ℤ) - 1 : ℤ) : α) := by push_cast; ring
  have hd1 : (x - (r + c)) / c = (x - r) / c - 1 := by
    rw [show x - (r + c) = (x - r) - c by ring, sub_div, div_self hc.ne']
  have hd2 : (x + (r + c)) / c = (x + r) / c + 1 := by
    rw [show x + (r + c) = (x + r) + c by ring, add_div, div_self hc.ne']
  have hF : ⌊(x - (r + c)) / c⌋ = ⌊(x - r) / c⌋ - 1 := by
    rw [hd1, show ((x - r) / c - 1 : α) = (x - r) / c - ((1 : ℤ) : α) by push_cast; ring,
      Int.floor_sub_int]
  have hG : ⌊(x + (r + c)) / c⌋ = ⌊(x + r) / c⌋ + 1 := by
    rw [hd2, show ((x + r) / c + 1 : α) = (x + r) / c + ((1 : ℤ) : α) by push_cast; ring,
      Int.floor_add_int]
  have hmono1 : ⌊(x - r) / c⌋ ≤ ⌊p / c⌋ :=
    Int.floor_le_floor (by gcongr)
  have hmono2 : ⌊p / c⌋ ≤ ⌊(x + r) / c⌋ :=
    Int.floor_le_floor (by gcongr)
  have hxcols : ⌊(x - r) / c⌋ ≤ (cols : ℤ) := by
    have h5 : (x - r) / c ≤ (((cols : ℤ)) : α) := by
      push_cast
      rw [div_le_iff hc]
      calc x - r ≤ x := by linarith
        _ ≤ w := hxw
        _ ≤ (cols : α) * c := hwc
    have h6 := Int.floor_le_floor h5
    rw [Int.floor_intCast] at h6
    exact h6
  have hGnonneg : 0 ≤ ⌊(x + r) / c⌋ + 1 := by
    have : (0 : α) ≤ (x + r) / c := div_nonneg (by linarith) hc.le
    have := Int.floor_nonneg.2 this
    omega
  constructor
  · rw [floor_max_zero, hF]
    have h1 : max (⌊(x - r) / c⌋ - 1) 0 ≤ max (⌊p / c⌋ - 1) 0 := by omega
    omega
  · rw [hcolscast, floor_min_cast, hG]
    omega

/-- The rebuilt hash used by every query theorem: `new` followed by `rebuild`. -/
def rebuiltNew (W H c : α) (cap : ℕ) (posX posY : ℕ → α) (alive : ℕ → ℕ) (count : ℕ) :
    SpatialHash α :=
  (SpatialHash.new W H c cap).rebuild posX posY alive count

/-- The entity list stored in bucket `k`. -/
def bucketChain (h : SpatialHash α) (fuel k : ℕ) : List ℕ := chainToList h.next fuel (h.buckets k)

theorem rebuiltNew_chain_mem (W H c : α) (cap count : ℕ) (posX posY : ℕ → α)
    (alive : ℕ → ℕ) (j k : ℕ) :
    j ∈ bucketChain (rebuiltNew W H c cap posX posY alive count) count k ↔
      (j < count ∧ alive j ≠ 0 ∧
        (SpatialHash.new W H c cap).getKey (posX j) (posY j) = k) := by
  show j ∈ chainToList (rebuildState _ alive count).2 count ((rebuildState _ alive count).1 k) ↔ _
  rw [rebuildState_chain_mem _ alive count k count le_rfl j]

theorem cols_mul_cell_covers {w c : α} (hc : 0 < c) :
    w ≤ ((max (⌈w / c⌉).toNat 1 : ℕ) : α) * c := by
  have h1 : w / c ≤ ((⌈w / c⌉ : ℤ) : α) := Int.le_ceil _
  have h2 : (⌈w / c⌉ : ℤ) ≤ ((⌈w / c⌉).toNat : ℤ) := Int.self_le_toNat _
  have h3 : ((⌈w / c⌉).toNat : ℕ) ≤ max (⌈w / c⌉).toNat 1 := le_max_left _ _
  have h4 : w / c ≤ ((max (⌈w / c⌉).toNat 1 : ℕ) : α) := by
    calc w / c ≤ ((⌈w / c⌉ : ℤ) : α) := h1
      _ ≤ (((⌈w / c⌉).toNat : ℤ) : α) := by exact_mod_cast h2
      _ ≤ ((max (⌈w / c⌉).toNat 1 : ℕ) : α) := by exact_mod_cast h3
  calc w = w / c * c := by field_simp
    _ ≤ ((max (⌈w / c⌉).toNat 1 : ℕ) : α) * c := by
        exact mul_le_mul_of_nonneg_right h4 hc.le

/-- C6. After `rebuild`, (a) bucket `k`'s list holds exactly the alive
entities below `count` whose clamped cell key is `k`, each exactly once with
no duplicates; (b) the rebuilt state is independent of any leftover bucket
or next state from a prior tick; (c) `query_neighbors` returns every entity
stored in every cell of the padded bounding box; and (d) for an in-world
query point and a nonnegative radius it therefore returns a superset of all
alive entities within true Euclidean distance `radius`. -/
theorem c6_rebuild_query_superset (W H c : α) (cap count : ℕ) (posX posY : ℕ → α)
    (alive : ℕ → ℕ) (x y radius : α)
    (hc : 0 < c) (hx0 : 0 ≤ x) (hxW : x ≤ W) (hy0 : 0 ≤ y) (hyH : y ≤ H) (hr : 0 ≤ radius) :
    (∀ j k, j ∈ bucketChain (rebuiltNew W H c cap posX posY alive count) count k ↔
        (j < count ∧ alive j ≠ 0 ∧
          (SpatialHash.new W H c cap).getKey (posX j) (posY j) = k)) ∧
      (∀ k, (bucketChain (rebuiltNew W H c cap posX posY alive count) count k).Nodup) ∧
      (∀ b0 n0, SpatialHash.rebuild
          { SpatialHash.new W H c cap with buckets := b0, next := n0 } posX posY alive count =
            rebuiltNew W H c cap posX posY alive count) ∧
      (∀ cx cy j,
        (SpatialHash.new W H c cap).queryX0 x (radius + c) ≤ cx →
        cx ≤ (SpatialHash.new W H c cap).queryX1 x (radius + c) →
        (SpatialHash.new W H c cap).queryY0 y (radius + c) ≤ cy →
        cy ≤ (SpatialHash.new W H c cap).queryY1 y (radius + c) →
        j ∈ bucketChain (rebuiltNew W H c cap posX posY alive count) count
          (cy * (SpatialHash.new W H c cap).cols + cx) →
        j ∈ (rebuiltNew W H c cap posX posY alive count).queryNeighbors x y radius count) ∧
      (∀ j, j < count → alive j ≠ 0 →
        (posX j - x) ^ 2 + (posY j - y) ^ 2 ≤ radius ^ 2 →
        j ∈ (rebuiltNew W H c cap posX posY alive count).queryNeighbors x y radius count) := by
  have hchain := rebuiltNew_chain_mem W H c cap count posX posY alive
  have hnodup : ∀ k, (bucketChain (rebuiltNew W H c cap posX posY alive count) count k).Nodup :=
    fun k => rebuildState_chain_nodup _ alive count k count le_rfl
  have hcover : ∀ cx cy j,
      (SpatialHash.new W H c cap).queryX0 x (radius + c) ≤ cx →
      cx ≤ (SpatialHash.new W H c cap).queryX1 x (radius + c) →
      (SpatialHash.new W H c cap).queryY0 y (radius + c) ≤ cy →
      cy ≤ (SpatialHash.new W H c cap).queryY1 y (radius + c) →
      j ∈ bucketChain (rebuiltNew W H c cap posX posY alive count) count
        (cy * (SpatialHash.new W H c cap).cols + cx) →
      j ∈ (rebuiltNew W H c cap posX posY alive count).queryNeighbors x y radius count := by
    intro cx cy j h1 h2 h3 h4 hmem
    rw [SpatialHash.queryNeighbors, List.mem_flatMap]
    refine ⟨cy, mem_natRange h3 h4, ?_⟩
    rw [List.mem_flatMap]
    exact ⟨cx, mem_natRange h1 h2, hmem⟩
  refine ⟨hchain, hnodup, fun b0 n0 => rfl, hcover, ?_⟩
  intro j hj ha hdist
  have hsq : ∀ u v : α, u ^ 2 ≤ v ^ 2 → 0 ≤ v → -v ≤ u ∧ u ≤ v := by
    intro u v huv hv
    constructor <;> nlinarith
  have hdx := hsq (posX j - x) radius (by nlinarith [sq_nonneg (posY j - y)]) hr
  have hdy := hsq (posY j - y) radius (by nlinarith [sq_nonneg (posX j - x)]) hr
  have hWc : W ≤ (((SpatialHash.new W H c cap : SpatialHash α).cols : ℕ) : α) * c :=
    cols_mul_cell_covers hc
  have hHc : H ≤ (((SpatialHash.new W H c cap : SpatialHash α).rows : ℕ) : α) * c :=
    cols_mul_cell_covers hc
  have hcols1 : 1 ≤ (SpatialHash.new W H c cap : SpatialHash α).cols := le_max_right _ _
  have hrows1 : 1 ≤ (SpatialHash.new W H c cap : SpatialHash α).rows := le_max_right _ _
  have hax := axis_cover c x (posX j) radius W _ hc hr hx0 hxW hWc hcols1
    (by linarith [hdx.1]) (by linarith [hdx.2])
  have hay := axis_cover c y (posY j) radius H _ hc hr hy0 hyH hHc hrows1
    (by linarith [hdy.1]) (by linarith [hdy.2])
  refine hcover ((SpatialHash.new W H c cap).getKeyX (posX j))
    ((SpatialHash.new W H c cap).getKeyY (posY j)) j hax.1 hax.2 hay.1 hay.2 ?_
  rw [hchain]
  exact ⟨hj, ha, rfl⟩

theorem visitChain_record (next : ℕ → ℤ) (p : ℕ → Bool) (limit : ℕ) :
    ∀ (fuel : ℕ) (head : ℤ) (checked : ℕ) (s : List ℕ),
      ∃ seg : List ℕ,
        visitChain next (recordAccept p) limit fuel head (checked, s) =
          (checked + (seg.filter p).length, s ++ seg) ∧
        (∀ j ∈ seg, j ∈ chainToList next fuel head) ∧
        (checked ≤ limit → checked + (seg.filter p).length ≤ limit) := by
  intro fuel
  induction fuel with
  | zero =>
      intro head checked s
      exact ⟨[], by simp [visitChain], by simp, fun h => by simpa⟩
  | succ f ih =>
      intro head checked s
      by_cases hstop : head = -1 ∨ limit ≤ checked
      · refine ⟨[], ?_, by simp, fun h => by simpa⟩
        simp [visitChain, hstop]
      · obtain ⟨seg', heq, hmem, hle⟩ :=
          ih (next head.toNat) (if p head.toNat then checked + 1 else checked) (s ++ [head.toNat])
        refine ⟨head.toNat :: seg', ?_, ?_, ?_⟩
        · have hstep : visitChain next (recordAccept p) limit (f + 1) head (checked, s) =
              visitChain next (recordAccept p) limit f (next head.toNat)
                (if p head.toNat then checked + 1 else checked, s ++ [head.toNat]) := by
            simp only [visitChain, hstop, if_false, recordAccept]
          rw [hstep, heq]
          simp only [Prod.mk.injEq]
          constructor
          · cases hp : p head.toNat <;> simp [List.filter_cons, hp] <;> omega
          · simp
        · intro j hj
          push_neg at hstop
          have hchain : chainToList next (f + 1) head =
              head.toNat :: chainToList next f (next head.toNat) := by
            simp [chainToList, hstop.1]
          rw [hchain]
          rcases List.mem_cons.1 hj with h | h
          · rw [h]
            exact List.mem_cons_self _ _
          · exact List.mem_cons_of_mem _ (hmem j h)
        · intro hcl
          push_neg at hstop
          have h1 : (if p head.toNat then checked + 1 else checked) ≤ limit := by
            split_ifs
            · omega
            · omega
          have h2 := hle h1
          cases hp : p head.toNat <;> simp [List.filter_cons, hp] at h2 ⊢ <;> omega

theorem visitCells_record (next buckets : ℕ → ℤ) (cols : ℕ) (p : ℕ → Bool) (limit fuel : ℕ)
    (rke : ℕ → ℕ) (rkc : ℕ × ℕ → ℕ) :
    ∀ (cells : List (ℕ × ℕ)) (checked : ℕ) (s : List ℕ),
      checked ≤ limit →
      (s.map rke).Sorted (· ≤ ·) →
      (∀ e ∈ s, ∀ cl ∈ cells, ∀ j ∈ chainToList next fuel (buckets (cl.2 * cols + cl.1)),
        rke e ≤ rkc cl) →
      cells.Pairwise (fun c c' => rkc c ≤ rkc c') →
      (∀ cl ∈ cells, ∀ j ∈ chainToList next fuel (buckets (cl.2 * cols + cl.1)),
        rke j = rkc cl) →
      ∃ seg : List ℕ,
        visitCells next buckets cols (recordAccept p) limit fuel cells (checked, s) =
          (checked + (seg.filter p).length, s ++ seg) ∧
        checked + (seg.filter p).length ≤ limit ∧
        ((s ++ seg).map rke).Sorted (· ≤ ·) := by
  intro cells
  induction cells with
  | nil =>
      intro checked s hcl hsort _ _ _
      exact ⟨[], by simp [visitCells], by simpa, by simpa⟩
  | cons c rest ih =>
      intro checked s hcl hsort hprev hpw hrank
      obtain ⟨seg1, heq1, hmem1, hle1⟩ :=
        visitChain_record next p limit fuel (buckets (c.2 * cols + c.1)) checked s
      have hrank1 : ∀ j ∈ seg1, rke j = rkc c := fun j hj =>
        hrank c (List.mem_cons_self _ _) j (hmem1 j hj)
      have hsort1 : ((s ++ seg1).map rke).Sorted (· ≤ ·) := by
        rw [List.map_append]
        rw [List.Sorted, List.pairwise_append]
        refine ⟨hsort, ?_, ?_⟩
        · refine List.pairwise_of_forall_mem_list ?_
          intro a ha b hb
          rw [List.mem_map] at ha hb
          obtain ⟨ja, hja, rfl⟩ := ha
          obtain ⟨jb, hjb, rfl⟩ := hb
          rw [hrank1 ja hja, hrank1 jb hjb]
        · intro a ha b hb
          rw [List.mem_map] at ha hb
          obtain ⟨ja, hja, rfl⟩ := ha
          obtain ⟨jb, hjb, rfl⟩ := hb
          rw [hrank1 jb hjb]
          exact hprev ja hja c (List.mem_cons_self _ _) jb (hmem1 jb hjb)
      have hstep : visitCells next buckets cols (recordAccept p) limit fuel (c :: rest)
          (checked, s) =
          (if limit ≤ (checked + (seg1.filter p).length) then
            (checked + (seg1.filter p).length, s ++ seg1)
          else visitCells next buckets cols (recordAccept p) limit fuel rest
            (checked + (seg1.filter p).length, s ++ seg1)) := by
        simp only [visitCells, heq1]
      by_cases hfull : limit ≤ checked + (seg1.filter p).length
      · refine ⟨seg1, ?_, hle1 hcl, hsort1⟩
        rw [hstep, if_pos hfull]
      · obtain ⟨seg2, heq2, hle2, hsort2⟩ := ih (checked + (seg1.filter p).length) (s ++ seg1)
          (hle1 hcl) hsort1
          (by
            intro e he cl hclmem j hj
            rcases List.mem_append.1 he with h | h
            · exact hprev e h cl (List.mem_cons_of_mem _ hclmem) j hj
            · rw [hrank1 e h]
              have : rke j = rkc cl := hrank cl (List.mem_cons_of_mem _ hclmem) j hj
              rw [this] at *
              exact (List.pairwise_cons.1 hpw).1 cl hclmem)
          (List.pairwise_cons.1 hpw).2
          (fun cl hclmem j hj => hrank cl (List.mem_cons_of_mem _ hclmem) j hj)
        refine ⟨seg1 ++ seg2, ?_, ?_, ?_⟩
        · rw [hstep, if_neg hfull, heq2, List.filter_append, List.length_append]
          simp only [Prod.mk.injEq]
          constructor
          · omega
          · rw [List.append_assoc]
        · rw [List.filter_append, List.length_append]
          omega
        · rw [← List.append_assoc]
          exact hsort2

theorem flatMap_range_pairwise (g : ℕ → List (ℕ × ℕ)) (rkc : ℕ × ℕ → ℕ)
    (hg : ∀ r, ∀ cl ∈ g r, rkc cl = r) :
    ∀ n, ((List.range n).flatMap g).Pairwise (fun c c' => rkc c ≤ rkc c') := by
  intro n
  induction n with
  | zero => simp
  | succ m ih =>
      rw [List.range_succ, List.flatMap_append]
      rw [List.pairwise_append]
      refine ⟨ih, ?_, ?_⟩
      · simp only [List.flatMap_cons, List.flatMap_nil, List.append_nil]
        refine List.pairwise_of_forall_mem_list ?_
        intro a ha b hb
        rw [hg m a ha, hg m b hb]
      · intro a ha b hb
        simp only [List.flatMap_cons, List.flatMap_nil, List.append_nil] at hb
        rw [List.mem_flatMap] at ha
        obtain ⟨r, hr, hmem⟩ := ha
        rw [List.mem_range] at hr
        rw [hg r a hmem, hg m b hb]
        omega

theorem ringCells_rank {x0 x1 y0 y1 ccx ccy maxRing : ℕ} {cl : ℕ × ℕ}
    (h : cl ∈ ringCells x0 x1 y0 y1 ccx ccy maxRing) :
    cl ∈ boxCells x0 x1 y0 y1 ∧ chebDist cl (ccx, ccy) ≤ maxRing := by
  rw [ringCells, List.mem_flatMap] at h
  obtain ⟨r, hr, hmem⟩ := h
  rw [List.mem_range] at hr
  rw [List.mem_filter] at hmem
  have := of_decide_eq_true hmem.2
  exact ⟨hmem.1, by omega⟩

theorem ringCells_pairwise (x0 x1 y0 y1 ccx ccy maxRing : ℕ) :
    (ringCells x0 x1 y0 y1 ccx ccy maxRing).Pairwise
      (fun c c' => chebDist c (ccx, ccy) ≤ chebDist c' (ccx, ccy)) := by
  refine flatMap_range_pairwise _ _ ?_ (maxRing + 1)
  intro r cl hcl
  rw [List.mem_filter] at hcl
  exact of_decide_eq_true hcl.2

theorem boxCells_mem {x0 x1 y0 y1 : ℕ} {cl : ℕ × ℕ} (h : cl ∈ boxCells x0 x1 y0 y1) :
    x0 ≤ cl.1 ∧ cl.1 ≤ x1 ∧ y0 ≤ cl.2 ∧ cl.2 ≤ y1 := by
  rw [boxCells, List.mem_flatMap] at h
  obtain ⟨cy, hcy, hmem⟩ := h
  rw [List.mem_map] at hmem
  obtain ⟨cx, hcx, rfl⟩ := hmem
  rw [natRange, List.mem_range'_1] at hcy hcx
  exact ⟨by omega, by omega, by omega, by omega⟩

theorem cell_decomp {a b d e n : ℕ} (ha : a < n) (hd : d < n) (h : b * n + a = e * n + d) :
    a = d ∧ b = e := by
  have h1 : (n * b + a) % n = a % n := Nat.mul_add_mod n b a
  have h2 : (n * e + d) % n = d % n := Nat.mul_add_mod n e d
  have h3 : a % n = a := Nat.mod_eq_of_lt ha
  have h4 : d % n = d := Nat.mod_eq_of_lt hd
  have had : a = d := by
    rw [Nat.mul_comm b n, Nat.mul_comm e n] at h
    rw [← h3, ← h1, h, h2, h4]
  refine ⟨had, ?_⟩
  subst had
  have : b * n = e * n := by omega
  have hn : 0 < n := by omega
  exact Nat.eq_of_mul_eq_mul_right hn this

theorem queryX1_le (h : SpatialHash α) (x r : α) : h.queryX1 x r ≤ h.cols - 1 := by
  rw [SpatialHash.queryX1]
  have hcast : ((h.cols : α) - 1) = (((h.cols : ℤ) - 1 : ℤ) : α) := by push_cast; ring
  rw [hcast, floor_min_cast]
  omega

theorem queryY1_le (h : SpatialHash α) (y r : α) : h.queryY1 y r ≤ h.rows - 1 := by
  rw [SpatialHash.queryY1]
  have hcast : ((h.rows : α) - 1) = (((h.rows : ℤ) - 1 : ℤ) : α) := by push_cast; ring
  rw [hcast, floor_min_cast]
  omega

/-- The Chebyshev ring (relative to the query point's own cell) of the cell
holding entity `j`. -/
def entityRing (h : SpatialHash α) (posX posY : ℕ → α) (x y : α) (j : ℕ) : ℕ :=
  chebDist (h.getKeyX (posX j), h.getKeyY (posY j)) (h.centerX x, h.centerY y)

/-- C5 (amended). `for_each_neighbor_limited` on a rebuilt hash scans cells
in expanding Chebyshev rings (only up to `⌊max(x1-x0, y1-y0)/2⌋`), so the
sequence of visited entities is nondecreasing in cell-ring distance from the
query cell (cell granularity, not exact Euclidean order); the returned value
is exactly the number of candidates the predicate accepted and never exceeds
the budget. -/
theorem c5_ring_order (W H c : α) (cap count : ℕ) (posX posY : ℕ → α) (alive : ℕ → ℕ)
    (x y radius : α) (limit : ℕ) (p : ℕ → Bool) :
    ((rebuiltNew W H c cap posX posY alive count).forEachNeighborLimited x y radius limit
        (recordAccept p) [] count).1 ≤ limit ∧
      ((rebuiltNew W H c cap posX posY alive count).forEachNeighborLimited x y radius limit
          (recordAccept p) [] count).1 =
        ((((rebuiltNew W H c cap posX posY alive count).forEachNeighborLimited x y radius limit
          (recordAccept p) [] count).2).filter p).length ∧
      ((((rebuiltNew W H c cap posX posY alive count).forEachNeighborLimited x y radius limit
          (recordAccept p) [] count).2).map
        (entityRing (rebuiltNew W H c cap posX posY alive count) posX posY x y)).Sorted
        (· ≤ ·) := by
  have hcols1 : 1 ≤ (rebuiltNew W H c cap posX posY alive count).cols := le_max_right _ _
  have hrank : ∀ cl ∈ ringCells ((rebuiltNew W H c cap posX posY alive count).queryX0 x radius)
        ((rebuiltNew W H c cap posX posY alive count).queryX1 x radius)
        ((rebuiltNew W H c cap posX posY alive count).queryY0 y radius)
        ((rebuiltNew W H c cap posX posY alive count).queryY1 y radius)
        ((rebuiltNew W H c cap posX posY alive count).centerX x)
        ((rebuiltNew W H c cap posX posY alive count).centerY y)
        (max ((rebuiltNew W H c cap posX posY alive count).queryX1 x radius -
            (rebuiltNew W H c cap posX posY alive count).queryX0 x radius)
          ((rebuiltNew W H c cap posX posY alive count).queryY1 y radius -
            (rebuiltNew W H c cap posX posY alive count).queryY0 y radius) / 2),
      ∀ j ∈ chainToList (rebuiltNew W H c cap posX posY alive count).next count
        ((rebuiltNew W H c cap posX posY alive count).buckets
          (cl.2 * (rebuiltNew W H c cap posX posY alive count).cols + cl.1)),
      entityRing (rebuiltNew W H c cap posX posY alive count) posX posY x y j =
        chebDist cl ((rebuiltNew W H c cap posX posY alive count).centerX x,
          (rebuiltNew W H c cap posX posY alive count).centerY y) := by
    intro cl hcl j hj
    have hbox := boxCells_mem (ringCells_rank hcl).1
    have hmem := (rebuiltNew_chain_mem W H c cap count posX posY alive j
      (cl.2 * (rebuiltNew W H c cap posX posY alive count).cols + cl.1)).1 hj
    obtain ⟨hjc, hja, hkey⟩ := hmem
    have hcolseq : (rebuiltNew W H c cap posX posY alive count).cols =
        (SpatialHash.new W H c cap : SpatialHash α).cols := rfl
    have hkx_lt : (SpatialHash.new W H c cap : SpatialHash α).getKeyX (posX j) <
        (SpatialHash.new W H c cap : SpatialHash α).cols := by
      have h1 : (SpatialHash.new W H c cap : SpatialHash α).getKeyX (posX j) ≤
          (SpatialHash.new W H c cap : SpatialHash α).cols - 1 := min_le_right _ _
      have h2 : 1 ≤ (SpatialHash.new W H c cap : SpatialHash α).cols := le_max_right _ _
      omega
    have hcl1_lt : cl.1 < (SpatialHash.new W H c cap : SpatialHash α).cols := by
      have h1 := queryX1_le (rebuiltNew W H c cap posX posY alive count) x radius
      have h2 := hbox.2.1
      have hcols1' : 1 ≤ (SpatialHash.new W H c cap : SpatialHash α).cols := le_max_right _ _
      omega
    have hdec := cell_decomp hkx_lt hcl1_lt hkey
    show chebDist ((SpatialHash.new W H c cap : SpatialHash α).getKeyX (posX j),
        (SpatialHash.new W H c cap : SpatialHash α).getKeyY (posY j)) _ = chebDist cl _
    rw [hdec.1, hdec.2]
  obtain ⟨seg, heq, hle, hsort⟩ :=
    visitCells_record (rebuiltNew W H c cap posX posY alive count).next
      (rebuiltNew W H c cap posX posY alive count).buckets
      (rebuiltNew W H c cap posX posY alive count).cols p limit count
      (entityRing (rebuiltNew W H c cap posX posY alive count) posX posY x y)
      (fun cl => chebDist cl ((rebuiltNew W H c cap posX posY alive count).centerX x,
        (rebuiltNew W H c cap posX posY alive count).centerY y))
      (ringCells ((rebuiltNew W H c cap posX posY alive count).queryX0 x radius)
        ((rebuiltNew W H c cap posX posY alive count).queryX1 x radius)
        ((rebuiltNew W H c cap posX posY alive count).queryY0 y radius)
        ((rebuiltNew W H c cap posX posY alive count).queryY1 y radius)
        ((rebuiltNew W H c cap posX posY alive count).centerX x)
        ((rebuiltNew W H c cap posX posY alive count).centerY y)
        (max ((rebuiltNew W H c cap posX posY alive count).queryX1 x radius -
            (rebuiltNew W H c cap posX posY alive count).queryX0 x radius)
          ((rebuiltNew W H c cap posX posY alive count).queryY1 y radius -
            (rebuiltNew W H c cap posX posY alive count).queryY0 y radius) / 2))
      0 [] (Nat.zero_le _) (by simp) (by intro e he; simp at he)
      (ringCells_pairwise _ _ _ _ _ _ _)
      hrank
  have hF : (rebuiltNew W H c cap posX posY alive count).forEachNeighborLimited x y radius limit
      (recordAccept p) [] count = (0 + (List.filter p seg).length, [] ++ seg) := heq
  refine ⟨?_, ?_, ?_⟩
  · rw [hF]
    simpa using hle
  · rw [hF]
    simp
  · rw [hF]
    simpa using hsort

theorem c6_witness :
    0 ∈ (rebuiltNew (100 : ℚ) 100 50 2 (fun _ => 10) (fun _ => 10)
        (fun _ => 1) 1).queryNeighbors 12 12 5 1 :=
  (c6_rebuild_query_superset 100 100 50 2 1 (fun _ => 10) (fun _ => 10) (fun _ => 1) 12 12 5
    (by norm_num) (by norm_num) (by norm_num) (by norm_num) (by norm_num) (by norm_num)).2.2.2.2
    0 (by norm_num) (by norm_num)
    (by show ((10 : ℚ) - 12) ^ 2 + ((10 : ℚ) - 12) ^ 2 ≤ 5 ^ 2; norm_num)

/-- Positions of the two entities of the C5 counterexample: entity 0 at
(49, 49) (same cell as the query point, Euclidean distance ≈ 69.3), entity 1
at (55, 0) (next cell over, Euclidean distance 55). -/
def c5posX : ℕ → ℚ := fun j => if j = 0 then 49 else 55

/-- The y coordinates of the C5 counterexample entities. -/
def c5posY : ℕ → ℚ := fun j => if j = 0 then 49 else 0

/-- The rebuilt 3×3 hash (world 150×150, cell 50) of the C5 counterexample. -/
def c5hash : SpatialHash ℚ := rebuiltNew 150 150 50 2 c5posX c5posY (fun _ => 1) 2

/-- The limited scan of the C5 counterexample: query point (0,0), radius
110, budget 1, accept-everything predicate. -/
def c5scan : ℕ × List ℕ :=
  c5hash.forEachNeighborLimited 0 0 110 1 (recordAccept (fun _ => true)) [] 2

theorem c5hash_cols : c5hash.cols = 3 := by
  show max (⌈(150 : ℚ) / 50⌉).toNat 1 = 3
  have h : ⌈(150 : ℚ) / 50⌉ = 3 := by norm_num
  rw [h]
  rfl

theorem c5_getKeyX_49 : (SpatialHash.new (150 : ℚ) 150 50 2).getKeyX 49 = 0 := by
  rw [SpatialHash.getKeyX]
  have h1 : ⌊(49 : ℚ) / (SpatialHash.new (150 : ℚ) 150 50 2).cellSize⌋ = 0 := by
    show ⌊(49 : ℚ) / 50⌋ = 0
    norm_num
  rw [h1]
  simp

theorem c5_getKeyX_55 : (SpatialHash.new (150 : ℚ) 150 50 2).getKeyX 55 = 1 := by
  rw [SpatialHash.getKeyX]
  have h1 : ⌊(55 : ℚ) / (SpatialHash.new (150 : ℚ) 150 50 2).cellSize⌋ = 1 := by
    show ⌊(55 : ℚ) / 50⌋ = 1
    norm_num
  rw [h1]
  have h2 : (SpatialHash.new (150 : ℚ) 150 50 2 : SpatialHash ℚ).cols = 3 := c5hash_cols
  rw [h2]
  rfl

theorem c5_getKeyY_49 : (SpatialHash.new (150 : ℚ) 150 50 2).getKeyY 49 = 0 := by
  rw [SpatialHash.getKeyY]
  have h1 : ⌊(49 : ℚ) / (SpatialHash.new (150 : ℚ) 150 50 2).cellSize⌋ = 0 := by
    show ⌊(49 : ℚ) / 50⌋ = 0
    norm_num
  rw [h1]
  simp

theorem c5_getKeyY_0 : (SpatialHash.new (150 : ℚ) 150 50 2).getKeyY 0 = 0 := by
  rw [SpatialHash.getKeyY]
  have h1 : ⌊(0 : ℚ) / (SpatialHash.new (150 : ℚ) 150 50 2).cellSize⌋ = 0 := by
    show ⌊(0 : ℚ) / 50⌋ = 0
    norm_num
  rw [h1]
  simp

theorem c5_key0 : (SpatialHash.new (150 : ℚ) 150 50 2).getKey (c5posX 0) (c5posY 0) = 0 := by
  rw [show c5posX 0 = (49 : ℚ) from rfl, show c5posY 0 = (49 : ℚ) from rfl,
    SpatialHash.getKey, c5_getKeyX_49, c5_getKeyY_49]
  simp

theorem c5_key1 : (SpatialHash.new (150 : ℚ) 150 50 2).getKey (c5posX 1) (c5posY 1) = 1 := by
  rw [show c5posX 1 = (55 : ℚ) from rfl, show c5posY 1 = (0 : ℚ) from rfl,
    SpatialHash.getKey, c5_getKeyX_55, c5_getKeyY_0]
  simp

theorem c5hash_state :
    c5hash.buckets = Function.update (Function.update (fun _ => (-1 : ℤ)) 0 0) 1 1 ∧
      c5hash.next = Function.update (Function.update (fun _ => (-1 : ℤ)) 0 (-1)) 1 (-1) := by
  have hpair : rebuildState
      (fun i => (SpatialHash.new (150 : ℚ) 150 50 2).getKey (c5posX i) (c5posY i))
      (fun _ => 1) 2 =
      (Function.update (Function.update (fun _ => (-1 : ℤ)) 0 0) 1 1,
        Function.update (Function.update (fun _ => (-1 : ℤ)) 0 (-1)) 1 (-1)) := by
    rw [rebuildState, show List.range 2 = [0, 1] from rfl]
    simp only [List.foldl_cons, List.foldl_nil]
    rw [if_neg (by norm_num), if_neg (by norm_num)]
    simp only [insertEntity, c5_key0, c5_key1]
    have hupd : Function.update (fun _ => (-1 : ℤ)) 0 ((0 : ℕ) : ℤ) 1 = -1 :=
      Function.update_noteq (by norm_num) _ _
    rw [hupd]
    rfl
  constructor
  · show (rebuildState
      (fun i => (SpatialHash.new (150 : ℚ) 150 50 2).getKey (c5posX i) (c5posY i))
      (fun _ => 1) 2).1 = _
    rw [hpair]
  · show (rebuildState
      (fun i => (SpatialHash.new (150 : ℚ) 150 50 2).getKey (c5posX i) (c5posY i))
      (fun _ => 1) 2).2 = _
    rw [hpair]

theorem c5hash_qx0 : c5hash.queryX0 0 110 = 0 := by
  rw [SpatialHash.queryX0]
  have h1 : max (((0 : ℚ) - 110) / c5hash.cellSize) 0 = 0 := by
    show max (((0 : ℚ) - 110) / 50) 0 = 0
    rw [max_eq_right (by norm_num)]
  rw [h1]
  simp

theorem c5hash_qx1 : c5hash.queryX1 0 110 = 2 := by
  rw [SpatialHash.queryX1, c5hash_cols]
  have h1 : min (((0 : ℚ) + 110) / c5hash.cellSize) (((3 : ℕ) : ℚ) - 1) = 2 := by
    show min (((0 : ℚ) + 110) / 50) (((3 : ℕ) : ℚ) - 1) = 2
    rw [min_eq_right (by norm_num)]
    norm_num
  rw [h1]
  have h2 : ⌊(2 : ℚ)⌋ = 2 := by norm_num
  rw [h2]
  rfl

theorem c5hash_qy0 : c5hash.queryY0 0 110 = 0 := by
  rw [SpatialHash.queryY0]
  have h1 : max (((0 : ℚ) - 110) / c5hash.cellSize) 0 = 0 := by
    show max (((0 : ℚ) - 110) / 50) 0 = 0
    rw [max_eq_right (by norm_num)]
  rw [h1]
  simp

theorem c5hash_qy1 : c5hash.queryY1 0 110 = 2 := by
  rw [SpatialHash.queryY1]
  have hrows : c5hash.rows = 3 := by
    show max (⌈(150 : ℚ) / 50⌉).toNat 1 = 3
    have h : ⌈(150 : ℚ) / 50⌉ = 3 := by norm_num
    rw [h]
    rfl
  rw [hrows]
  have h1 : min (((0 : ℚ) + 110) / c5hash.cellSize) (((3 : ℕ) : ℚ) - 1) = 2 := by
    show min (((0 : ℚ) + 110) / 50) (((3 : ℕ) : ℚ) - 1) = 2
    rw [min_eq_right (by norm_num)]
    norm_num
  rw [h1]
  have h2 : ⌊(2 : ℚ)⌋ = 2 := by norm_num
  rw [h2]
  rfl

theorem c5hash_cx : c5hash.centerX 0 = 0 := by
  rw [SpatialHash.centerX]
  have h1 : ⌊(0 : ℚ) / c5hash.cellSize⌋ = 0 := by
    show ⌊(0 : ℚ) / 50⌋ = 0
    norm_num
  rw [h1]
  rfl

theorem c5hash_cy : c5hash.centerY 0 = 0 := by
  rw [SpatialHash.centerY]
  have h1 : ⌊(0 : ℚ) / c5hash.cellSize⌋ = 0 := by
    show ⌊(0 : ℚ) / 50⌋ = 0
    norm_num
  rw [h1]
  rfl

/-- C5 counterexample: with budget 1, entity 0 (at distance ≈ 69.3, but in
the query point's own cell, ring 0) is visited and accepted, exhausting the
budget; entity 1, strictly nearer at Euclidean distance 55 but in a ring-1
cell, is never visited.  So the scan does not visit the k nearest entities
before a farther one when the budget is exhausted. -/
theorem c5_counterexample :
    c5scan.1 = 1 ∧ c5scan.2 = [0] ∧ (1 : ℕ) ∉ c5scan.2 ∧
      (c5posX 1 - 0) ^ 2 + (c5posY 1 - 0) ^ 2 < (c5posX 0 - 0) ^ 2 + (c5posY 0 - 0) ^ 2 := by
  have hscan : c5scan = (1, [0]) := by
    show visitCells c5hash.next c5hash.buckets c5hash.cols
      (recordAccept (fun _ => true)) 1 2
      (ringCells (c5hash.queryX0 0 110) (c5hash.queryX1 0 110)
        (c5hash.queryY0 0 110) (c5hash.queryY1 0 110)
        (c5hash.centerX 0) (c5hash.centerY 0)
        (max (c5hash.queryX1 0 110 - c5hash.queryX0 0 110)
          (c5hash.queryY1 0 110 - c5hash.queryY0 0 110) / 2))
      (0, []) = (1, [0])
    rw [c5hash_qx0, c5hash_qx1, c5hash_qy0, c5hash_qy1, c5hash_cx, c5hash_cy,
      c5hash_cols, c5hash_state.1, c5hash_state.2]
    decide
  refine ⟨by rw [hscan], by rw [hscan], by rw [hscan]; decide, ?_⟩
  show ((55 : ℚ) - 0) ^ 2 + ((0 : ℚ) - 0) ^ 2 < ((49 : ℚ) - 0) ^ 2 + ((49 : ℚ) - 0) ^ 2
  norm_num

/-! Collision constraints (collision.rs, `apply_collision_constraints`). -/

/-- A cache state that cannot lie: the cache has one slot per grid cell (no
slot aliasing, which holds exactly when the grid has at most 10000 cells)
and every populated slot agrees with the grid byte of its cell. -/
def CacheFaithful (m : BiomeCollisionMap α) : Prop :=
  m.cacheLen = m.gridWidth * m.gridHeight ∧
    ∀ i b, m.cache i = some b → b = decide (m.traversability i = 1)

theorem flagAt_set_cache (m : BiomeCollisionMap α) (c' : ℕ → Option Bool) (x y : α) :
    BiomeCollisionMap.flagAt { m with cache := c' } x y = m.flagAt x y := rfl

theorem isTraversable_faithful (m : BiomeCollisionMap α) (x y : α) (hm : CacheFaithful m) :
    (m.isTraversable x y).1 = m.flagAt x y ∧
      CacheFaithful (m.isTraversable x y).2 ∧
      ∃ c', (m.isTraversable x y).2 = { m with cache := c' } := by
  by_cases hb : m.gridWidth ≤ m.gridXOf x ∨ m.gridHeight ≤ m.gridYOf y
  · have h1 : m.isTraversable x y = (false, m) := by
      unfold BiomeCollisionMap.isTraversable
      rw [if_pos hb]
    have h2 : m.flagAt x y = false := by
      rw [BiomeCollisionMap.flagAt, if_pos hb]
    rw [h1, h2]
    exact ⟨rfl, hm, m.cache, rfl⟩
  · push_neg at hb
    have hidx : m.gridYOf y * m.gridWidth + m.gridXOf x < m.gridWidth * m.gridHeight := by
      have h1 : m.gridYOf y * m.gridWidth + m.gridXOf x < (m.gridYOf y + 1) * m.gridWidth := by
        rw [Nat.succ_mul]
        omega
      have h2 : (m.gridYOf y + 1) * m.gridWidth ≤ m.gridHeight * m.gridWidth :=
        Nat.mul_le_mul_right _ (by omega)
      calc m.gridYOf y * m.gridWidth + m.gridXOf x < (m.gridYOf y + 1) * m.gridWidth := h1
        _ ≤ m.gridHeight * m.gridWidth := h2
        _ = m.gridWidth * m.gridHeight := Nat.mul_comm _ _
    have hmod : (m.gridYOf y * m.gridWidth + m.gridXOf x) % m.cacheLen =
        m.gridYOf y * m.gridWidth + m.gridXOf x := by
      rw [hm.1]
      exact Nat.mod_eq_of_lt hidx
    have hflag : m.flagAt x y =
        decide (m.traversability (m.gridYOf y * m.gridWidth + m.gridXOf x) = 1) := by
      rw [BiomeCollisionMap.flagAt, if_neg (by push_neg; exact hb), BiomeCollisionMap.cellIndexOf]
    cases hc : m.cache ((m.gridYOf y * m.gridWidth + m.gridXOf x) % m.cacheLen) with
    | some b =>
        have h1 := isTraversable_of_cache_some m x y b hb.1 hb.2 hc
        rw [h1, hflag]
        rw [hmod] at hc
        refine ⟨hm.2 _ b hc, hm, m.cache, rfl⟩
    | none =>
        have h1 := isTraversable_of_cache_none m x y hb.1 hb.2 hc
        rw [h1, hflag]
        refine ⟨rfl, ⟨hm.1, ?_⟩, _, rfl⟩
        intro i b hib
        dsimp only at hib ⊢
        by_cases hii : i = (m.gridYOf y * m.gridWidth + m.gridXOf x) % m.cacheLen
        · rw [hii, Function.update_same] at hib
          rw [hmod] at hii
          rw [hii]
          exact (Option.some_inj.1 hib).symm
        · rw [Function.update_noteq hii] at hib
          exact hm.2 i b hib

/-- The probe angle table of the escape tier (collision.rs line 158). -/
def probeAngles : List ℝ := [0, 45, 90, 135, 180, 225, 270, 315]

/-- The escape-probe loop (collision.rs lines 161-172): walk the compass
angles, testing `(current + dir * escape_dist)` with the usual y-mirror; the
first traversable probe yields velocity `dir * 30`, and the cache-mutating
map state is threaded through every test. -/
noncomputable def escapeProbe (currentX currentY escDist : ℝ) :
    List ℝ → BiomeCollisionMap ℝ → Option (ℝ × ℝ) × BiomeCollisionMap ℝ
  | [], m => (none, m)
  | angleDeg :: rest, m =>
      let angle := angleDeg * Real.pi / 180
      let r := m.isTraversable (currentX + Real.cos angle * escDist)
        (m.worldHeight - (currentY + Real.sin angle * escDist))
      if r.1 then (some (Real.cos angle * 30, Real.sin angle * 30), r.2)
      else escapeProbe currentX currentY escDist rest r.2

/-- The loop body of `apply_collision_constraints` (collision.rs lines
120-174) for one entity: returns the new position, the new velocity, and
the map state after all cache-mutating traversability tests. -/
noncomputable def applyCollisionEntity (m : BiomeCollisionMap ℝ) (dt px py vx vy : ℝ) :
    (ℝ × ℝ) × (ℝ × ℝ) × BiomeCollisionMap ℝ :=
  let nextX := px + vx * dt
  let nextY := py + vy * dt
  let flippedY := m.worldHeight - nextY
  let r1 := m.isTraversable nextX flippedY
  if r1.1 then ((nextX, nextY), (vx, vy), r1.2)
  else
    let flippedCurrentY := m.worldHeight - py
    let r2 := r1.2.isTraversable nextX flippedCurrentY
    if r2.1 then ((nextX, py), (vx, vy * (-0.5)), r2.2)
    else
      let r3 := r2.2.isTraversable px flippedY
      if r3.1 then ((px, nextY), (vx * (-0.5), vy), r3.2)
      else
        let pr := escapeProbe px py (m.cellSize * 2) probeAngles r3.2
        match pr.1 with
        | some v => ((px, py), v, pr.2)
        | none => ((px, py), (vx * (-0.8), vy * (-0.8)), pr.2)

/-- The pure first-successful-probe function: the first angle of the table
whose (mirrored) probe point is traversable per the grid flags. -/
noncomputable def probeFind (m : BiomeCollisionMap ℝ) (cx cy d : ℝ) : Option ℝ :=
  probeAngles.find? (fun a => m.flagAt (cx + Real.cos (a * Real.pi / 180) * d)
    (m.worldHeight - (cy + Real.sin (a * Real.pi / 180) * d)))

theorem escapeProbe_spec (cx cy d : ℝ) :
    ∀ (l : List ℝ) (m : BiomeCollisionMap ℝ), CacheFaithful m →
      (escapeProbe cx cy d l m).1 =
        (l.find? (fun a => m.flagAt (cx + Real.cos (a * Real.pi / 180) * d)
          (m.worldHeight - (cy + Real.sin (a * Real.pi / 180) * d)))).map
          (fun a => (Real.cos (a * Real.pi / 180) * 30, Real.sin (a * Real.pi / 180) * 30)) := by
  intro l
  induction l with
  | nil => intro m _; rfl
  | cons a rest ih =>
      intro m hm
      obtain ⟨hf, hcf, c', hc⟩ := isTraversable_faithful m
        (cx + Real.cos (a * Real.pi / 180) * d)
        (m.worldHeight - (cy + Real.sin (a * Real.pi / 180) * d)) hm
      by_cases hflag : m.flagAt (cx + Real.cos (a * Real.pi / 180) * d)
          (m.worldHeight - (cy + Real.sin (a * Real.pi / 180) * d)) = true
      · have hstep : escapeProbe cx cy d (a :: rest) m =
            (some (Real.cos (a * Real.pi / 180) * 30, Real.sin (a * Real.pi / 180) * 30),
              (m.isTraversable (cx + Real.cos (a * Real.pi / 180) * d)
                (m.worldHeight - (cy + Real.sin (a * Real.pi / 180) * d))).2) := by
          simp only [escapeProbe]
          rw [if_pos (by rw [hf]; exact hflag)]
        rw [hstep,
          @List.find?_cons_of_pos ℝ (fun a => m.flagAt (cx + Real.cos (a * Real.pi / 180) * d)
            (m.worldHeight - (cy + Real.sin (a * Real.pi / 180) * d))) a rest hflag]
        rfl
      · have hflag' : m.flagAt (cx + Real.cos (a * Real.pi / 180) * d)
            (m.worldHeight - (cy + Real.sin (a * Real.pi / 180) * d)) = false := by
          revert hflag
          cases m.flagAt (cx + Real.cos (a * Real.pi / 180) * d)
            (m.worldHeight - (cy + Real.sin (a * Real.pi / 180) * d)) <;> simp
        have hstep : escapeProbe cx cy d (a :: rest) m =
            escapeProbe cx cy d rest
              (m.isTraversable (cx + Real.cos (a * Real.pi / 180) * d)
                (m.worldHeight - (cy + Real.sin (a * Real.pi / 180) * d))).2 := by
          simp only [escapeProbe]
          rw [if_neg (by rw [hf, hflag']; exact Bool.false_ne_true)]
        rw [hstep, hc, ih _ (hc ▸ hcf),
          @List.find?_cons_of_neg ℝ (fun a => m.flagAt (cx + Real.cos (a * Real.pi / 180) * d)
            (m.worldHeight - (cy + Real.sin (a * Real.pi / 180) * d))) a rest
            (by simpa using hflag)]
        rfl

theorem probeFind_set_cache (m : BiomeCollisionMap ℝ) (c' : ℕ → Option Bool) (cx cy d : ℝ) :
    probeFind { m with cache := c' } cx cy d = probeFind m cx cy d := rfl

theorem collision_tier1 (m : BiomeCollisionMap ℝ) (dt px py vx vy : ℝ) (hm : CacheFaithful m)
    (h1 : m.flagAt (px + vx * dt) (m.worldHeight - (py + vy * dt)) = true) :
    (applyCollisionEntity m dt px py vx vy).1 = (px + vx * dt, py + vy * dt) ∧
      (applyCollisionEntity m dt px py vx vy).2.1 = (vx, vy) := by
  have hcond : (m.isTraversable (px + vx * dt) (m.worldHeight - (py + vy * dt))).1 = true := by
    rw [(isTraversable_faithful m (px + vx * dt) (m.worldHeight - (py + vy * dt)) hm).1]
    exact h1
  constructor <;> (simp only [applyCollisionEntity]; rw [if_pos hcond])

theorem collision_tier2 (m : BiomeCollisionMap ℝ) (dt px py vx vy : ℝ) (hm : CacheFaithful m)
    (h1 : m.flagAt (px + vx * dt) (m.worldHeight - (py + vy * dt)) = false)
    (h2 : m.flagAt (px + vx * dt) (m.worldHeight - py) = true) :
    (applyCollisionEntity m dt px py vx vy).1 = (px + vx * dt, py) ∧
      (applyCollisionEntity m dt px py vx vy).2.1 = (vx, vy * (-0.5)) := by
  obtain ⟨hf1, hcf1, c1, hc1⟩ :=
    isTraversable_faithful m (px + vx * dt) (m.worldHeight - (py + vy * dt)) hm
  have hcond1 : ¬ ((m.isTraversable (px + vx * dt) (m.worldHeight - (py + vy * dt))).1 = true) := by
    rw [hf1, h1]
    exact Bool.false_ne_true
  rw [hc1] at hcf1
  have hcond2 : ((BiomeCollisionMap.isTraversable { m with cache := c1 }
      (px + vx * dt) (m.worldHeight - py)).1) = true := by
    rw [(isTraversable_faithful { m with cache := c1 } (px + vx * dt)
      (m.worldHeight - py) hcf1).1]
    exact h2
  constructor <;>
    (simp only [applyCollisionEntity]; rw [if_neg hcond1, hc1, if_pos hcond2])

theorem collision_tier3 (m : BiomeCollisionMap ℝ) (dt px py vx vy : ℝ) (hm : CacheFaithful m)
    (h1 : m.flagAt (px + vx * dt) (m.worldHeight - (py + vy * dt)) = false)
    (h2 : m.flagAt (px + vx * dt) (m.worldHeight - py) = false)
    (h3 : m.flagAt px (m.worldHeight - (py + vy * dt)) = true) :
    (applyCollisionEntity m dt px py vx vy).1 = (px, py + vy * dt) ∧
      (applyCollisionEntity m dt px py vx vy).2.1 = (vx * (-0.5), vy) := by
  obtain ⟨hf1, hcf1, c1, hc1⟩ :=
    isTraversable_faithful m (px + vx * dt) (m.worldHeight - (py + vy * dt)) hm
  have hcond1 : ¬ ((m.isTraversable (px + vx * dt) (m.worldHeight - (py + vy * dt))).1 = true) := by
    rw [hf1, h1]
    exact Bool.false_ne_true
  rw [hc1] at hcf1
  obtain ⟨hf2, hcf2, c2, hc2⟩ :=
    isTraversable_faithful { m with cache := c1 } (px + vx * dt) (m.worldHeight - py) hcf1
  have hcond2 : ¬ ((BiomeCollisionMap.isTraversable { m with cache := c1 }
      (px + vx * dt) (m.worldHeight - py)).1 = true) := by
    rw [hf2]
    rw [flagAt_set_cache, h2]
    exact Bool.false_ne_true
  rw [hc2] at hcf2
  have hcond3 : ((BiomeCollisionMap.isTraversable { m with cache := c2 }
      px (m.worldHeight - (py + vy * dt))).1) = true := by
    rw [(isTraversable_faithful { m with cache := c2 } px
      (m.worldHeight - (py + vy * dt)) hcf2).1]
    exact h3
  constructor <;>
    (simp only [applyCollisionEntity]; rw [if_neg hcond1, hc1, if_neg hcond2, hc2, if_pos hcond3])

theorem collision_tier4 (m : BiomeCollisionMap ℝ) (dt px py vx vy : ℝ) (hm : CacheFaithful m)
    (h1 : m.flagAt (px + vx * dt) (m.worldHeight - (py + vy * dt)) = false)
    (h2 : m.flagAt (px + vx * dt) (m.worldHeight - py) = false)
    (h3 : m.flagAt px (m.worldHeight - (py + vy * dt)) = false) :
    (applyCollisionEntity m dt px py vx vy).1 = (px, py) ∧
      (applyCollisionEntity m dt px py vx vy).2.1 =
        (match probeFind m px py (m.cellSize * 2) with
          | some a => (Real.cos (a * Real.pi / 180) * 30, Real.sin (a * Real.pi / 180) * 30)
          | none => (vx * (-0.8), vy * (-0.8))) := by
  obtain ⟨hf1, hcf1, c1, hc1⟩ :=
    isTraversable_faithful m (px + vx * dt) (m.worldHeight - (py + vy * dt)) hm
  have hcond1 : ¬ ((m.isTraversable (px + vx * dt) (m.worldHeight - (py + vy * dt))).1 = true) := by
    rw [hf1, h1]
    exact Bool.false_ne_true
  rw [hc1] at hcf1
  obtain ⟨hf2, hcf2, c2, hc2⟩ :=
    isTraversable_faithful { m with cache := c1 } (px + vx * dt) (m.worldHeight - py) hcf1
  have hcond2 : ¬ ((BiomeCollisionMap.isTraversable { m with cache := c1 }
      (px + vx * dt) (m.worldHeight - py)).1 = true) := by
    rw [hf2, flagAt_set_cache, h2]
    exact Bool.false_ne_true
  rw [hc2] at hcf2
  obtain ⟨hf3, hcf3, c3, hc3⟩ :=
    isTraversable_faithful { m with cache := c2 } px (m.worldHeight - (py + vy * dt)) hcf2
  have hcond3 : ¬ ((BiomeCollisionMap.isTraversable { m with cache := c2 }
      px (m.worldHeight - (py + vy * dt))).1 = true) := by
    rw [hf3, flagAt_set_cache, h3]
    exact Bool.false_ne_true
  rw [hc3] at hcf3
  have hprobe : (escapeProbe px py (m.cellSize * 2) probeAngles { m with cache := c3 }).1 =
      (probeFind m px py (m.cellSize * 2)).map
        (fun a => (Real.cos (a * Real.pi / 180) * 30, Real.sin (a * Real.pi / 180) * 30)) := by
    rw [escapeProbe_spec px py (m.cellSize * 2) probeAngles { m with cache := c3 } hcf3]
    rfl
  constructor <;>
    (simp only [applyCollisionEntity]
     rw [if_neg hcond1, hc1, if_neg hcond2, hc2, if_neg hcond3, hc3, hprobe]
     cases probeFind m px py (m.cellSize * 2) <;> rfl)

/-- C7. The three-tier resolution of `apply_collision_constraints` for one
entity, with all traversability consultations (made against the vertically
mirrored y, see C10) expressed through the pure grid flags: accept the
candidate unchanged; else slide horizontally with `vy *= -0.5`; else slide
vertically with `vx *= -0.5`; else invert both components by `-0.8` and
probe the eight compass directions at distance `2 * cell_size`, the first
traversable probe fixing the velocity to speed 30 along that direction,
position unchanged in the whole escape tier. Requires a faithful cache
(one slot per cell — grids of at most 10000 cells — with no stale entries). -/
theorem c7_collision_tiers (m : BiomeCollisionMap ℝ) (dt px py vx vy : ℝ)
    (hm : CacheFaithful m) :
    (m.flagAt (px + vx * dt) (m.worldHeight - (py + vy * dt)) = true →
      (applyCollisionEntity m dt px py vx vy).1 = (px + vx * dt, py + vy * dt) ∧
        (applyCollisionEntity m dt px py vx vy).2.1 = (vx, vy)) ∧
      (m.flagAt (px + vx * dt) (m.worldHeight - (py + vy * dt)) = false →
        m.flagAt (px + vx * dt) (m.worldHeight - py) = true →
        (applyCollisionEntity m dt px py vx vy).1 = (px + vx * dt, py) ∧
          (applyCollisionEntity m dt px py vx vy).2.1 = (vx, vy * (-0.5))) ∧
      (m.flagAt (px + vx * dt) (m.worldHeight - (py + vy * dt)) = false →
        m.flagAt (px + vx * dt) (m.worldHeight - py) = false →
        m.flagAt px (m.worldHeight - (py + vy * dt)) = true →
        (applyCollisionEntity m dt px py vx vy).1 = (px, py + vy * dt) ∧
          (applyCollisionEntity m dt px py vx vy).2.1 = (vx * (-0.5), vy)) ∧
      (m.flagAt (px + vx * dt) (m.worldHeight - (py + vy * dt)) = false →
        m.flagAt (px + vx * dt) (m.worldHeight - py) = false →
        m.flagAt px (m.worldHeight - (py + vy * dt)) = false →
        (applyCollisionEntity m dt px py vx vy).1 = (px, py) ∧
          (applyCollisionEntity m dt px py vx vy).2.1 =
            (match probeFind m px py (m.cellSize * 2) with
              | some a => (Real.cos (a * Real.pi / 180) * 30, Real.sin (a * Real.pi / 180) * 30)
              | none => (vx * (-0.8), vy * (-0.8)))) :=
  ⟨fun h1 => collision_tier1 m dt px py vx vy hm h1,
    fun h1 h2 => collision_tier2 m dt px py vx vy hm h1 h2,
    fun h1 h2 h3 => collision_tier3 m dt px py vx vy hm h1 h2 h3,
    fun h1 h2 h3 => collision_tier4 m dt px py vx vy hm h1 h2 h3⟩

theorem flagAt_eval (m : BiomeCollisionMap α) (x y : α) (gx gy : ℕ)
    (hx0 : 0 ≤ x) (hxW : x < m.worldWidth) (hy0 : 0 ≤ y) (hyH : y < m.worldHeight)
    (hgx : (⌊x / m.cellSize⌋).toNat = gx) (hgy : (⌊y / m.cellSize⌋).toNat = gy)
    (hbx : gx < m.gridWidth) (hby : gy < m.gridHeight) :
    m.flagAt x y = decide (m.traversability (gy * m.gridWidth + gx) = 1) := by
  have h1 : m.gridXOf x = gx := by
    rw [BiomeCollisionMap.gridXOf, wrapCoord_of_mem hx0 hxW, hgx]
  have h2 : m.gridYOf y = gy := by
    rw [BiomeCollisionMap.gridYOf, wrapCoord_of_mem hy0 hyH, hgy]
  rw [BiomeCollisionMap.flagAt, if_neg (by push_neg; rw [h1, h2]; exact ⟨hbx, hby⟩),
    BiomeCollisionMap.cellIndexOf, h1, h2]

/-- An all-traversable 2×2 map on a 100×100 world, used as the C7 witness. -/
def openMap : BiomeCollisionMap ℝ := BiomeCollisionMap.new (fun _ => 1) 2 2 50 100 100

theorem openMap_faithful : CacheFaithful openMap := by
  constructor
  · rfl
  · intro i b h
    exact absurd h (by show (none : Option Bool) ≠ some b; simp)

theorem c7_witness :
    (applyCollisionEntity openMap 1 10 10 5 0).1 = (10 + 5 * 1, 10 + 0 * 1) ∧
      (applyCollisionEntity openMap 1 10 10 5 0).2.1 = (5, 0) := by
  have hflag : openMap.flagAt (10 + 5 * 1) (openMap.worldHeight - (10 + 0 * 1)) = true := by
    have hx : ((10 : ℝ) + 5 * 1) = 15 := by norm_num
    have hy : (openMap.worldHeight - (10 + 0 * 1)) = (90 : ℝ) := by
      show (100 : ℝ) - (10 + 0 * 1) = 90
      norm_num
    rw [hx, hy, flagAt_eval openMap 15 90 0 1 (by norm_num)
      (by show (15 : ℝ) < 100; norm_num) (by norm_num) (by show (90 : ℝ) < 100; norm_num)
      (by show (⌊(15 : ℝ) / 50⌋).toNat = 0
          have h : ⌊(15 : ℝ) / 50⌋ = 0 := by norm_num
          rw [h]; rfl)
      (by show (⌊(90 : ℝ) / 50⌋).toNat = 1
          have h : ⌊(90 : ℝ) / 50⌋ = 1 := by norm_num
          rw [h]; rfl)
      (by show 0 < 2; norm_num) (by show 1 < 2; norm_num)]
    rfl
  exact (c7_collision_tiers openMap 1 10 10 5 0 openMap_faithful).1 hflag

/-- A 2×2 map (100×100 world) whose grid cell 0 — the cell of the
*candidate* next position (15, 10) — is blocked, while cell 2, the cell of
the mirrored point (15, 90), is traversable. -/
def mirrorMapA : BiomeCollisionMap ℝ :=
  BiomeCollisionMap.new (fun i => if i = 0 then 0 else 1) 2 2 50 100 100

/-- A 2×4 map (100×200 world) whose cell 4 — the cell of the mirrored
candidate (15, 130) — is blocked, while cell 2, the cell of the candidate
(15, 70) itself, and cell 6 (mirrored current row) are traversable. -/
def mirrorMapB : BiomeCollisionMap ℝ :=
  BiomeCollisionMap.new (fun i => if i = 4 then 0 else 1) 2 4 50 100 200

theorem mirrorMapA_faithful : CacheFaithful mirrorMapA := by
  constructor
  · rfl
  · intro i b h
    exact absurd h (by show (none : Option Bool) ≠ some b; simp)

theorem mirrorMapB_faithful : CacheFaithful mirrorMapB := by
  constructor
  · rfl
  · intro i b h
    exact absurd h (by show (none : Option Bool) ≠ some b; simp)

/-- C10. Every traversability test of `apply_collision_constraints` is made
at the vertically mirrored y-coordinate (`world_height - y`), so acceptance
is decided by the flag of the cell containing the mirrored point rather
than the candidate position's own cell: (1) whenever the mirrored point of
the candidate is traversable, the move is accepted unchanged; (2) on
`mirrorMapA` the candidate's own cell is blocked yet the move is accepted
because the mirrored cell is traversable; (3) on `mirrorMapB` the
candidate's own cell is traversable yet the move is *not* accepted — the
mirrored cell is blocked and the entity slides horizontally instead. -/
theorem c10_mirrored_traversability (m : BiomeCollisionMap ℝ) (dt px py vx vy : ℝ)
    (hm : CacheFaithful m) :
    (m.flagAt (px + vx * dt) (m.worldHeight - (py + vy * dt)) = true →
      (applyCollisionEntity m dt px py vx vy).1 = (px + vx * dt, py + vy * dt) ∧
        (applyCollisionEntity m dt px py vx vy).2.1 = (vx, vy)) ∧
      (mirrorMapA.flagAt (10 + 5 * 1) (10 + 0 * 1) = false ∧
        mirrorMapA.flagAt (10 + 5 * 1) (mirrorMapA.worldHeight - (10 + 0 * 1)) = true ∧
        (applyCollisionEntity mirrorMapA 1 10 10 5 0).1 = (10 + 5 * 1, 10 + 0 * 1) ∧
        (applyCollisionEntity mirrorMapA 1 10 10 5 0).2.1 = (5, 0)) ∧
      (mirrorMapB.flagAt (10 + 5 * 1) (10 + 60 * 1) = true ∧
        mirrorMapB.flagAt (10 + 5 * 1) (mirrorMapB.worldHeight - (10 + 60 * 1)) = false ∧
        (applyCollisionEntity mirrorMapB 1 10 10 5 60).1 = (10 + 5 * 1, 10) ∧
        (applyCollisionEntity mirrorMapB 1 10 10 5 60).1 ≠ (10 + 5 * 1, 10 + 60 * 1) ∧
        (applyCollisionEntity mirrorMapB 1 10 10 5 60).2.1 = (5, 60 * (-0.5))) := by
  have hx15 : ((10 : ℝ) + 5 * 1) = 15 := by norm_num
  have floor15 : (⌊(15 : ℝ) / 50⌋).toNat = 0 := by
    have h : ⌊(15 : ℝ) / 50⌋ = 0 := by norm_num
    rw [h]
    rfl
  have hA1 : mirrorMapA.flagAt (10 + 5 * 1) (10 + 0 * 1) = false := by
    rw [hx15, show ((10 : ℝ) + 0 * 1) = 10 by norm_num,
      flagAt_eval mirrorMapA 15 10 0 0 (by norm_num) (by show (15 : ℝ) < 100; norm_num)
        (by norm_num) (by show (10 : ℝ) < 100; norm_num) floor15
        (by show (⌊(10 : ℝ) / 50⌋).toNat = 0
            have h : ⌊(10 : ℝ) / 50⌋ = 0 := by norm_num
            rw [h]; rfl)
        (by show 0 < 2; norm_num) (by show 0 < 2; norm_num)]
    rfl
  have hA2 : mirrorMapA.flagAt (10 + 5 * 1) (mirrorMapA.worldHeight - (10 + 0 * 1)) = true := by
    rw [hx15, show (mirrorMapA.worldHeight - (10 + 0 * 1)) = (90 : ℝ) by
        show (100 : ℝ) - (10 + 0 * 1) = 90; norm_num,
      flagAt_eval mirrorMapA 15 90 0 1 (by norm_num) (by show (15 : ℝ) < 100; norm_num)
        (by norm_num) (by show (90 : ℝ) < 100; norm_num) floor15
        (by show (⌊(90 : ℝ) / 50⌋).toNat = 1
            have h : ⌊(90 : ℝ) / 50⌋ = 1 := by norm_num
            rw [h]; rfl)
        (by show 0 < 2; norm_num) (by show 1 < 2; norm_num)]
    rfl
  have hB1 : mirrorMapB.flagAt (10 + 5 * 1) (10 + 60 * 1) = true := by
    rw [hx15, show ((10 : ℝ) + 60 * 1) = 70 by norm_num,
      flagAt_eval mirrorMapB 15 70 0 1 (by norm_num) (by show (15 : ℝ) < 100; norm_num)
        (by norm_num) (by show (70 : ℝ) < 200; norm_num) floor15
        (by show (⌊(70 : ℝ) / 50⌋).toNat = 1
            have h : ⌊(70 : ℝ) / 50⌋ = 1 := by norm_num
            rw [h]; rfl)
        (by show 0 < 2; norm_num) (by show 1 < 4; norm_num)]
    rfl
  have hB2 : mirrorMapB.flagAt (10 + 5 * 1) (mirrorMapB.worldHeight - (10 + 60 * 1)) = false := by
    rw [hx15, show (mirrorMapB.worldHeight - (10 + 60 * 1)) = (130 : ℝ) by
        show (200 : ℝ) - (10 + 60 * 1) = 130; norm_num,
      flagAt_eval mirrorMapB 15 130 0 2 (by norm_num) (by show (15 : ℝ) < 100; norm_num)
        (by norm_num) (by show (130 : ℝ) < 200; norm_num) floor15
        (by show (⌊(130 : ℝ) / 50⌋).toNat = 2
            have h : ⌊(130 : ℝ) / 50⌋ = 2 := by norm_num
            rw [h]; rfl)
        (by show 0 < 2; norm_num) (by show 2 < 4; norm_num)]
    rfl
  have hB3 : mirrorMapB.flagAt (10 + 5 * 1) (mirrorMapB.worldHeight - 10) = true := by
    rw [hx15, show (mirrorMapB.worldHeight - 10) = (190 : ℝ) by
        show (200 : ℝ) - 10 = 190; norm_num,
      flagAt_eval mirrorMapB 15 190 0 3 (by norm_num) (by show (15 : ℝ) < 100; norm_num)
        (by norm_num) (by show (190 : ℝ) < 200; norm_num) floor15
        (by show (⌊(190 : ℝ) / 50⌋).toNat = 3
            have h : ⌊(190 : ℝ) / 50⌋ = 3 := by norm_num
            rw [h]; rfl)
        (by show 0 < 2; norm_num) (by show 3 < 4; norm_num)]
    rfl
  have hAacc := collision_tier1 mirrorMapA 1 10 10 5 0 mirrorMapA_faithful hA2
  have hBacc := collision_tier2 mirrorMapB 1 10 10 5 60 mirrorMapB_faithful hB2 hB3
  refine ⟨fun h1 => collision_tier1 m dt px py vx vy hm h1,
    ⟨hA1, hA2, hAacc.1, hAacc.2⟩,
    ⟨hB1, hB2, hBacc.1, ?_, hBacc.2⟩⟩
  rw [hBacc.1]
  intro hcontra
  have h2 := congrArg Prod.snd hcontra
  simp only at h2
  norm_num at h2

theorem c10_witness :
    (applyCollisionEntity openMap 1 20 20 5 0).1 = (20 + 5 * 1, 20 + 0 * 1) := by
  have hflag : openMap.flagAt (20 + 5 * 1) (openMap.worldHeight - (20 + 0 * 1)) = true := by
    rw [show ((20 : ℝ) + 5 * 1) = 25 by norm_num,
      show (openMap.worldHeight - (20 + 0 * 1)) = (80 : ℝ) by
        show (100 : ℝ) - (20 + 0 * 1) = 80; norm_num,
      flagAt_eval openMap 25 80 0 1 (by norm_num) (by show (25 : ℝ) < 100; norm_num)
        (by norm_num) (by show (80 : ℝ) < 100; norm_num)
        (by show (⌊(25 : ℝ) / 50⌋).toNat = 0
            have h : ⌊(25 : ℝ) / 50⌋ = 0 := by norm_num
            rw [h]; rfl)
        (by show (⌊(80 : ℝ) / 50⌋).toNat = 1
            have h : ⌊(80 : ℝ) / 50⌋ = 1 := by norm_num
            rw [h]; rfl)
        (by show 0 < 2; norm_num) (by show 1 < 2; norm_num)]
    rfl
  exact ((c10_mirrored_traversability openMap 1 20 20 5 0 openMap_faithful).1 hflag).1

/-! Steering and behavior engine (movement.rs, `process_entity_movement`). -/

/-- Rust's `f32::atan2(y, x)` in exact arithmetic (`atan2(0, 0) = 0`). -/
noncomputable def atan2 (y x : ℝ) : ℝ :=
  if 0 < x then Real.arctan (y / x)
  else if x < 0 ∧ 0 ≤ y then Real.arctan (y / x) + Real.pi
  else if x < 0 ∧ y < 0 then Real.arctan (y / x) - Real.pi
  else if x = 0 ∧ 0 < y then Real.pi / 2
  else if x = 0 ∧ y < 0 then -(Real.pi / 2)
  else 0

/-- The value of `f32::MAX`, the initial best-prey score. -/
noncomputable def f32MAX : ℝ := (2 - 2 ^ (-23 : ℤ)) * 2 ^ (127 : ℕ)

/-- The deterministic pseudo-random wander angle (movement.rs line 217): a
pure function of the entity index and its x position. -/
noncomputable def wanderAngle (i : ℕ) (px : ℝ) : ℝ :=
  fmodF ((i : ℝ) * 12.34 + px * 56.78) 1 * (2 * Real.pi)

/-- The cached neighbor record of movement.rs lines 7-14. -/
structure Neighbor where
  index : ℕ
  dx : ℝ
  dy : ℝ
  distSq : ℝ
  isAlly : Bool
  energy : ℝ

/-- The mutable closure state of the neighbor scan (movement.rs lines
77-87). -/
structure MoveAcc where
  neighbors : List Neighbor
  alignX : ℝ
  alignY : ℝ
  separateX : ℝ
  separateY : ℝ
  cohesionX : ℝ
  cohesionY : ℝ
  nearbyAllies : ℕ
  bestPrey : Option ℕ
  bestPreyScore : ℝ

/-- Embedding of `process_entity_movement` (movement.rs lines 21-231).  The
function reads positions, velocities, energy, tribe ids, genes and the
spatial hash, and writes only entity `i`'s velocity; the returned pair is
the updated velocity arrays.  `fuel` bounds bucket-chain walks as in
`forEachNeighborLimited`.  The unused `world_width`/`world_height`
parameters of the source are kept in place. -/
noncomputable def processEntityMovement (i : ℕ) (posX posY velX velY : ℕ → ℝ)
    (energy : ℕ → ℝ) (tribeId : ℕ → ℕ) (genes : ℕ → ℝ) (spatialHash : SpatialHash ℝ)
    (_worldWidth _worldHeight dt : ℝ) (fuel : ℕ) : (ℕ → ℝ) × (ℕ → ℝ) :=
  let px := posX i
  let py := posY i
  let myTribe := tribeId i
  let myEnergy := energy i
  let speed := genes (i * 9)
  let vision := genes (i * 9 + 1)
  let metabolism := genes (i * 9 + 2)
  let cohesion := genes (i * 9 + 5)
  let diet := genes (i * 9 + 7)
  let viewAngle := genes (i * 9 + 8) * Real.pi / 180
  let metabolismEfficiency := min (metabolism / 0.15) 1
  let effectiveSpeed := speed * metabolismEfficiency
  let carnivoreLevel := max diet 0
  let isHunter := carnivoreLevel > 0.2
  let huntingThreshold := 95 - carnivoreLevel * 35
  let shouldHunt := isHunter ∧ myEnergy < huntingThreshold
  let myOrientation := atan2 (velY i) (velX i)
  let viewDirX := Real.cos myOrientation
  let viewDirY := Real.sin myOrientation
  let viewCosThreshold := Real.cos (viewAngle / 2)
  let huntVision := if shouldHunt then vision * 1.5 else vision
  let maxVision := max vision huntVision
  let visionSq := vision * vision
  let huntVisionSq := huntVision * huntVision
  let visit : MoveAcc → ℕ → MoveAcc × Bool := fun acc j =>
    if j = i then (acc, false)
    else
      let dx := posX j - px
      let dy := posY j - py
      let distSq := dx * dx + dy * dy
      if distSq > huntVisionSq then (acc, false)
      else
        let dot := (dx * viewDirX + dy * viewDirY) / Real.sqrt distSq
        let inView := dot > viewCosThreshold
        if ¬ inView ∧ distSq > visionSq * 0.25 then (acc, false)
        else
          let isAlly := tribeId j = myTribe
          let acc1 :=
            if distSq < visionSq ∧ acc.neighbors.length < 20 then
              { acc with neighbors :=
                  acc.neighbors ++ [⟨j, dx, dy, distSq, decide isAlly, energy j⟩] }
            else acc
          let acc2 :=
            if isAlly ∧ distSq < visionSq then
              { acc1 with
                nearbyAllies := acc1.nearbyAllies + 1
                alignX := acc1.alignX + velX j
                alignY := acc1.alignY + velY j
                cohesionX := acc1.cohesionX + posX j
                cohesionY := acc1.cohesionY + posY j
                separateX := if distSq < 400 ∧ distSq > 0.0001 then
                    acc1.separateX - dx * (1 / Real.sqrt distSq)
                  else acc1.separateX
                separateY := if distSq < 400 ∧ distSq > 0.0001 then
                    acc1.separateY - dy * (1 / Real.sqrt distSq)
                  else acc1.separateY }
            else acc1
          let acc3 :=
            if shouldHunt ∧ ¬ isAlly ∧ inView then
              let theirSpeed := genes (j * 9)
              let catchProbability :=
                if theirSpeed > 0 then min (effectiveSpeed / theirSpeed) 1 else 1
              let score := distSq / (energy j * catchProbability + 1)
              if score < acc2.bestPreyScore then
                { acc2 with bestPreyScore := score, bestPrey := some j }
              else acc2
            else acc2
          (acc3, true)
  let acc := (spatialHash.forEachNeighborLimited px py maxVision 40 visit
    ⟨[], 0, 0, 0, 0, 0, 0, 0, none, f32MAX⟩ fuel).2
  let alignSteer : ℝ × ℝ :=
    if acc.nearbyAllies > 1 then
      let ax := acc.alignX / (acc.nearbyAllies : ℝ)
      let ay := acc.alignY / (acc.nearbyAllies : ℝ)
      let alignMag := Real.sqrt (ax * ax + ay * ay)
      if alignMag > 0.001 then
        (ax / alignMag * (cohesion * 0.5), ay / alignMag * (cohesion * 0.5))
      else (0, 0)
    else (0, 0)
  let cohSteer : ℝ × ℝ :=
    if acc.nearbyAllies > 0 then
      let cx := acc.cohesionX / (acc.nearbyAllies : ℝ) - px
      let cy := acc.cohesionY / (acc.nearbyAllies : ℝ) - py
      let cohesionMag := Real.sqrt (cx * cx + cy * cy)
      if cohesionMag > 0.001 then
        (cx / cohesionMag * (cohesion * 0.3), cy / cohesionMag * (cohesion * 0.3))
      else (0, 0)
    else (0, 0)
  let sepMag := Real.sqrt (acc.separateX * acc.separateX + acc.separateY * acc.separateY)
  let sepSteer : ℝ × ℝ :=
    if sepMag > 0.001 then (acc.separateX / sepMag * 2, acc.separateY / sepMag * 2)
    else (0, 0)
  let huntSteer : ℝ × ℝ :=
    match acc.bestPrey with
    | some preyIdx =>
        let preyDx := posX preyIdx - px
        let preyDy := posY preyIdx - py
        let preyDist := Real.sqrt (preyDx * preyDx + preyDy * preyDy)
        if preyDist > 0.001 then
          let hungerDesperation := max ((huntingThreshold - myEnergy) / huntingThreshold) 0
          let huntForce := 3 + hungerDesperation * 2
          (preyDx / preyDist * huntForce, preyDy / preyDist * huntForce)
        else (0, 0)
    | none => (0, 0)
  let steerX := alignSteer.1 + cohSteer.1 + sepSteer.1 + huntSteer.1 +
    Real.cos (wanderAngle i px) * 0.1
  let steerY := alignSteer.2 + cohSteer.2 + sepSteer.2 + huntSteer.2 +
    Real.sin (wanderAngle i px) * 0.1
  let nvx0 := velX i + steerX * dt * 10
  let nvy0 := velY i + steerY * dt * 10
  let velMag := Real.sqrt (nvx0 * nvx0 + nvy0 * nvy0)
  let nvx := if velMag > effectiveSpeed then nvx0 / velMag * effectiveSpeed else nvx0
  let nvy := if velMag > effectiveSpeed then nvy0 / velMag * effectiveSpeed else nvy0
  (Function.update velX i nvx, Function.update velY i nvy)

/-- Embedding of `SimCore::process_movement_batch` (lib.rs lines 98-135,
without the performance timer): loop the entity range `start_idx..min(end_idx,
count)`, skip entities with `alive == 0`, and thread the velocity arrays
(the Rust loop mutates them in place, so later entities observe earlier
updates). -/
noncomputable def processMovementBatch (posX posY velX velY : ℕ → ℝ) (energy : ℕ → ℝ)
    (alive tribeId : ℕ → ℕ) (genes : ℕ → ℝ) (spatialHash : SpatialHash ℝ)
    (worldWidth worldHeight dt : ℝ) (startIdx endIdx count fuel : ℕ) : (ℕ → ℝ) × (ℕ → ℝ) :=
  (List.range' startIdx (min endIdx count - startIdx)).foldl
    (fun vel i =>
      if alive i = 0 then vel
      else processEntityMovement i posX posY vel.1 vel.2 energy tribeId genes spatialHash
        worldWidth worldHeight dt fuel)
    (velX, velY)

theorem processEntityMovement_shape (i : ℕ) (posX posY velX velY : ℕ → ℝ)
    (energy : ℕ → ℝ) (tribeId : ℕ → ℕ) (genes : ℕ → ℝ) (spatialHash : SpatialHash ℝ)
    (W H dt : ℝ) (fuel : ℕ) :
    ∃ a b, processEntityMovement i posX posY velX velY energy tribeId genes spatialHash
      W H dt fuel = (Function.update velX i a, Function.update velY i b) :=
  ⟨_, _, rfl⟩

/-- C9. `process_entity_movement` is a pure function of its inputs: two
invocations with identical entity index, position/velocity/energy/tribe/
gene arrays, spatial hash state, world dimensions and `dt` produce
identical velocity arrays; and the wander term is the stated pure function
of the entity index and its x position alone (no stateful randomness
exists in the embedding, which is total and state-free). -/
theorem c9_movement_deterministic (i : ℕ) (posX posY velX velY posX' posY' velX' velY' : ℕ → ℝ)
    (energy energy' : ℕ → ℝ) (tribeId tribeId' : ℕ → ℕ) (genes genes' : ℕ → ℝ)
    (spatialHash spatialHash' : SpatialHash ℝ) (W W' H H' dt dt' : ℝ) (fuel : ℕ)
    (h1 : posX = posX') (h2 : posY = posY') (h3 : velX = velX') (h4 : velY = velY')
    (h5 : energy = energy') (h6 : tribeId = tribeId') (h7 : genes = genes')
    (h8 : spatialHash = spatialHash') (h9 : W = W') (h10 : H = H') (h11 : dt = dt') :
    processEntityMovement i posX posY velX velY energy tribeId genes spatialHash
        W H dt fuel =
      processEntityMovement i posX' posY' velX' velY' energy' tribeId' genes' spatialHash'
        W' H' dt' fuel ∧
      wanderAngle i (posX i) = fmodF ((i : ℝ) * 12.34 + posX i * 56.78) 1 * (2 * Real.pi) := by
  subst h1 h2 h3 h4 h5 h6 h7 h8 h9 h10 h11
  exact ⟨rfl, rfl⟩

theorem c9_witness :
    processEntityMovement 0 (fun _ => 0) (fun _ => 0) (fun _ => 0) (fun _ => 0) (fun _ => 0)
        (fun _ => 0) (fun _ => 0) (SpatialHash.new 100 100 50 4) 100 100 1 4 =
      processEntityMovement 0 (fun _ => 0) (fun _ => 0) (fun _ => 0) (fun _ => 0) (fun _ => 0)
        (fun _ => 0) (fun _ => 0) (SpatialHash.new 100 100 50 4) 100 100 1 4 :=
  (c9_movement_deterministic 0 (fun _ => 0) (fun _ => 0) (fun _ => 0) (fun _ => 0)
    (fun _ => 0) (fun _ => 0) (fun _ => 0) (fun _ => 0) (fun _ => 0) (fun _ => 0)
    (fun _ => 0) (fun _ => 0) (fun _ => 0) (fun _ => 0)
    (SpatialHash.new 100 100 50 4) (SpatialHash.new 100 100 50 4) 100 100 100 100 1 1 4
    rfl rfl rfl rfl rfl rfl rfl rfl rfl rfl rfl).1

/-- C1 (amended). `process_movement_batch` skips entities with
`alive == 0`, leaving their velocity (it never writes positions at all)
unchanged — but `integrate_batch` and `apply_collision_constraints` consult
no alive flag at all, so they process dead entities too (see the
counterexample). -/
theorem c1_movement_batch_skips_dead (posX posY velX velY : ℕ → ℝ) (energy : ℕ → ℝ)
    (alive tribeId : ℕ → ℕ) (genes : ℕ → ℝ) (spatialHash : SpatialHash ℝ)
    (W H dt : ℝ) (startIdx endIdx count fuel : ℕ) (i : ℕ) (hdead : alive i = 0) :
    (processMovementBatch posX posY velX velY energy alive tribeId genes spatialHash
        W H dt startIdx endIdx count fuel).1 i = velX i ∧
      (processMovementBatch posX posY velX velY energy alive tribeId genes spatialHash
        W H dt startIdx endIdx count fuel).2 i = velY i := by
  have key : ∀ (l : List ℕ) (vel : (ℕ → ℝ) × (ℕ → ℝ)),
      ((l.foldl (fun vel j =>
          if alive j = 0 then vel
          else processEntityMovement j posX posY vel.1 vel.2 energy tribeId genes spatialHash
            W H dt fuel) vel).1 i = vel.1 i ∧
        (l.foldl (fun vel j =>
          if alive j = 0 then vel
          else processEntityMovement j posX posY vel.1 vel.2 energy tribeId genes spatialHash
            W H dt fuel) vel).2 i = vel.2 i) := by
    intro l
    induction l with
    | nil => intro vel; exact ⟨rfl, rfl⟩
    | cons j rest ih =>
        intro vel
        simp only [List.foldl_cons]
        by_cases hj : alive j = 0
        · rw [if_pos hj]
          exact ih vel
        · rw [if_neg hj]
          have hji : i ≠ j := fun h => hj (h ▸ hdead)
          obtain ⟨a, b, hab⟩ := processEntityMovement_shape j posX posY vel.1 vel.2 energy
            tribeId genes spatialHash W H dt fuel
          have hrec := ih (processEntityMovement j posX posY vel.1 vel.2 energy tribeId genes
            spatialHash W H dt fuel)
          rw [hab] at hrec
          refine ⟨?_, ?_⟩
          · rw [hab, hrec.1]
            exact Function.update_noteq hji a vel.1
          · rw [hab, hrec.2]
            exact Function.update_noteq hji b vel.2
  exact ⟨(key _ _).1, (key _ _).2⟩

theorem c1_witness :
    (processMovementBatch (fun _ => 0) (fun _ => 0) (fun _ => 3) (fun _ => 4) (fun _ => 0)
        (fun _ => 0) (fun _ => 0) (fun _ => 0) (SpatialHash.new 100 100 50 4)
        100 100 1 0 4 4 4).1 2 = (fun _ => (3 : ℝ)) 2 :=
  (c1_movement_batch_skips_dead (fun _ => 0) (fun _ => 0) (fun _ => 3) (fun _ => 4)
    (fun _ => 0) (fun _ => 0) (fun _ => 0) (fun _ => 0) (SpatialHash.new 100 100 50 4)
    100 100 1 0 4 4 4 2 rfl).1

/-- C1 counterexample: `integrate_batch` consults no alive flag, so an
entity that is dead (`alive 0 = 0` in the flag array shown) with velocity
(1, 0) still has its position advanced from 0 to 1 by the integrator. -/
theorem c1_counterexample :
    (fun _ => (0 : ℕ)) 0 = 0 ∧
      integrateBatch (fun n => if n = 0 then (5 : ℝ) else if n = 2 then 3/20 else 0)
          100 100 1 0 [⟨0, 0, 1, 0⟩] =
        [integrateEntity 5 (3/20) 100 100 1 ⟨0, 0, 1, 0⟩] ∧
      (integrateEntity 5 (3/20) 100 100 1 ⟨0, 0, 1, 0⟩).px = 1 ∧
      (1 : ℝ) ≠ 0 := by
  have hmag : Real.sqrt ((1 : ℝ) * 1 + 0 * 0) = 1 := by
    rw [show ((1 : ℝ) * 1 + 0 * 0) = 1 by ring, Real.sqrt_one]
  have hcond : ¬ (Real.sqrt ((1 : ℝ) * 1 + 0 * 0) > (5 : ℝ) * min ((3/20) / 0.15) 1 ∧
      Real.sqrt ((1 : ℝ) * 1 + 0 * 0) > 0.0001) := by
    rw [hmag]
    push_neg
    intro h
    norm_num at h
  have hpx : (integrateEntity 5 (3/20) 100 100 1 ⟨0, 0, 1, 0⟩).px = 1 := by
    simp only [integrateEntity] at hcond ⊢
    rw [if_neg hcond, show ((0 : ℝ) + 1 * 1) = 1 by ring, wrapAxis]
    norm_num
  exact ⟨rfl, rfl, hpx, by norm_num⟩

end GeneSim
